import Mathlib

/-!
Verification of the KoraScan sidecar's discover / verify / reclaim pipeline.

This file gives a shallow embedding of the pipeline's core:
  * the persistent store operations of src/lib/database.ts
    (upserts, status updates, metadata updates, checkpoint merge),
  * the verifier of src/lib/analyzer.ts (analyzeAccounts),
  * the reclaim engine of src/lib/webhook-handler.ts (Reclaimer:
    reclaimAllEligible, reclaimAccounts, batchFetchAccounts,
    reclaimBatch, reclaimSingle),
  * the discovery engine of src/lib/database.ts (Discoverer:
    processTransaction and the historical fullScan loop).

Network effects (account fetches, transaction submission, history pages)
are modelled as explicit parameters: a chain snapshot function, a
submission oracle, and a script of fetched pages.  Effectful calls
(submissions, candidate flushes) are recorded in traces so that "no
mutation was executed" is a statement about the trace.
-/

/-! ### Constants from the source -/

def TOKEN_PROGRAM_ID : String := "TokenkegQfeZyiNwAJbNbGKPFXCWuBvf9Ss623VQ5DA"

def TOKEN_2022_PROGRAM_ID : String := "TokenzQdBNbAtYpYbt9UEHJR9YWYvNf2t8S77tB39L"

def ASSOCIATED_TOKEN_PROGRAM_ID : String := "ATokenGPvbdGVxr1b2hvZbsiqW5xWH25efTNsLJA8knL"

def SYSTEM_PROGRAM_ID : String := "11111111111111111111111111111111"

/-- The `SYSTEM_ADDRESSES` set of well-known infrastructure addresses. -/
def SYSTEM_ADDRESSES : List String :=
  [ "SysvarRent111111111111111111111111111111111"
  , "SysvarC1ock11111111111111111111111111111111"
  , SYSTEM_PROGRAM_ID, TOKEN_PROGRAM_ID, TOKEN_2022_PROGRAM_ID
  , ASSOCIATED_TOKEN_PROGRAM_ID, "ComputeBudget111111111111111111111111111111" ]

/-- Fallback rent-exempt minimum for a 165-byte token account. -/
def TOKEN_ACCOUNT_RENT : Nat := 2039280

/-- The `ACCOUNT_SIZE` of spl-token's `AccountLayout`. -/
def ACCOUNT_SIZE : Nat := 165

/-! ### JavaScript falsy coercions

The source passes SQL arguments through `x || null` / `x || 0` /
`x || 'pending'`; `0` and the empty string are falsy in JavaScript, so
they coerce like `undefined`.  These helpers reproduce that. -/

def jsOrNullNat (o : Option Nat) : Option Nat :=
  o.bind (fun n => if n = 0 then none else some n)

def jsOrNullStr (o : Option String) : Option String :=
  o.bind (fun s => if s = "" then none else some s)

/-! ### On-chain state

`AccountInfo` is the result of `getMultipleAccountsInfo` for one
account: the owning program, the lamport balance and the data.
`tokenData` is the result of `AccountLayout.decode`; `none` stands for
data the decoder throws on. -/

structure TokenData where
  amount : Nat
  owner : String
  mint : String
  closeAuthorityOption : Nat
  closeAuthority : String
  deriving Repr, DecidableEq

structure AccountInfo where
  owner : String
  lamports : Nat
  dataLen : Nat
  tokenData : Option TokenData
  deriving Repr, DecidableEq

/-- A chain snapshot: what a fetch of each address returns
(`none` = the account does not exist). -/
def Chain : Type := String → Option AccountInfo

def isTokenProgram (owner : String) : Bool :=
  owner = TOKEN_PROGRAM_ID || owner = TOKEN_2022_PROGRAM_ID

/-! ### The persistent store

`Row` is one row of the `sponsored_accounts` table, keyed by pubkey.
The columns are the ones `initDb` creates (plus its migrations).
`mint` and `userWallet` use `""` for SQL NULL, matching how the source
reads and writes them.

The spec's data model additionally lists a last-error message and a
reclaimed amount among the lifecycle fields, and the Reclaimer passes
`errorMessage` / `reclaimedAmount` properties in its update requests;
the schema has no such columns and `batchUpdateAccountMetadata` never
binds them, so no store operation can write them.  They are kept here
as fields that every embedded operation leaves unchanged, so that
claims about them can be stated. -/

structure Row where
  operator : String
  userWallet : String
  mint : String
  type : String
  rentPaid : Int
  signature : String
  slot : Nat
  status : String
  lastChecked : Option Nat
  initialTimestamp : Option Nat
  reclaimedAt : Option Nat
  reclaimSignature : Option String
  sponsorshipSource : Option String
  memo : Option String
  errorMessage : Option String
  reclaimedAmount : Option Nat
  deriving Repr, DecidableEq

/-- One row of `scan_checkpoints`, keyed by operator. -/
structure CkptRow where
  oldestSignature : Option String
  newestSignature : Option String
  oldestSlot : Option Nat
  newestSlot : Option Nat
  totalAccounts : Nat
  reclaimableCount : Nat
  reclaimableLamports : Int
  scanStatus : String
  firstScanComplete : Bool
  lastScanAt : Option Nat
  deriving Repr, DecidableEq

structure Db where
  accounts : List (String × Row)
  checkpoints : List (String × CkptRow)
  deriving Repr, DecidableEq

def dbLookup (db : Db) (pk : String) : Option Row :=
  (db.accounts.find? (fun e => e.1 = pk)).map (fun e => e.2)

def dbGetCheckpoint (db : Db) (op : String) : Option CkptRow :=
  (db.checkpoints.find? (fun e => e.1 = op)).map (fun e => e.2)

/-- An `UPDATE ... WHERE pubkey = ?` touches every row with that key. -/
def dbModifyRow (db : Db) (pk : String) (f : Row → Row) : Db :=
  { db with accounts := db.accounts.map (fun e => if e.1 = pk then (e.1, f e.2) else e) }

def statusOf (db : Db) (pk : String) : Option String :=
  (dbLookup db pk).map (fun r => r.status)

/-! ### `updateAccountStatus` (database.ts)

The four-argument form writes `reclaimed_at` / `reclaim_signature` only
when *both* extras are truthy (`reclaimedAt && reclaimSignature`). -/

def updateAccountStatus (db : Db) (pk : String) (status : String)
    (now : Nat) (reclaimedAt : Option Nat) (reclaimSignature : Option String) : Db :=
  let truthy :=
    (jsOrNullNat reclaimedAt).isSome && (jsOrNullStr reclaimSignature).isSome
  dbModifyRow db pk (fun r =>
    if truthy then
      { r with status := status, lastChecked := some now,
               reclaimedAt := reclaimedAt, reclaimSignature := reclaimSignature }
    else
      { r with status := status, lastChecked := some now })

/-! ### `batchUpdateAccountMetadata` (database.ts)

The update shape is what the callers build.  `errorMessage` and
`reclaimedAmount` appear in several call sites but are not bound by the
SQL, which only sets mint, user_wallet, status, initial_timestamp,
sponsorship_source, memo and last_checked. -/

structure MetaUpdate where
  pubkey : String
  mint : Option String := none
  userWallet : Option String := none
  status : Option String := none
  initialTimestamp : Option Nat := none
  sponsorshipSource : Option String := none
  memo : Option String := none
  errorMessage : Option String := none
  reclaimedAmount : Option Nat := none
  deriving Repr, DecidableEq

def applyMetaUpdate (now : Nat) (u : MetaUpdate) (r : Row) : Row :=
  { r with
    mint := ((jsOrNullStr (some (u.mint.getD ""))).getD r.mint),
    userWallet := ((jsOrNullStr (some (u.userWallet.getD ""))).getD r.userWallet),
    status := (u.status.getD r.status),
    initialTimestamp := ((jsOrNullNat u.initialTimestamp).orElse (fun _ => r.initialTimestamp)),
    sponsorshipSource := ((jsOrNullStr u.sponsorshipSource).orElse (fun _ => r.sponsorshipSource)),
    memo := ((jsOrNullStr u.memo).orElse (fun _ => r.memo)),
    lastChecked := some now }

def batchUpdateAccountMetadata (db : Db) (now : Nat) : List MetaUpdate → Db
  | [] => db
  | u :: rest =>
      batchUpdateAccountMetadata (dbModifyRow db u.pubkey (applyMetaUpdate now u)) now rest

/-! ### `upsertSponsoredAccount` / `batchUpsertAccounts` (database.ts) -/

structure SponsoredAccount where
  pubkey : String
  operator : String
  userWallet : String
  mint : String
  type : String
  rentPaid : Int
  signature : String
  slot : Nat
  initialTimestamp : Option Nat := none
  reclaimedAt : Option Nat := none
  reclaimSignature : Option String := none
  sponsorshipSource : Option String := none
  memo : Option String := none
  status : String
  deriving Repr, DecidableEq

/-- The freshly inserted row (the VALUES tuple, after the `|| 0` /
`|| null` coercions of the argument list). -/
def insertRow (now : Nat) (a : SponsoredAccount) : Row :=
  { operator := a.operator
  , userWallet := a.userWallet
  , mint := a.mint
  , type := a.type
  , rentPaid := a.rentPaid
  , signature := a.signature
  , slot := a.slot
  , status := a.status
  , lastChecked := some now
  , initialTimestamp := some (a.initialTimestamp.getD 0)
  , reclaimedAt := jsOrNullNat a.reclaimedAt
  , reclaimSignature := jsOrNullStr a.reclaimSignature
  , sponsorshipSource := jsOrNullStr a.sponsorshipSource
  , memo := jsOrNullStr a.memo
  , errorMessage := none
  , reclaimedAmount := none }

/-- The `ON CONFLICT(pubkey) DO UPDATE SET` clause: status and
last_checked are overwritten, the other listed columns COALESCE the
excluded value with the existing one; identity/provenance columns are
not in the SET list and keep their stored values. -/
def mergeRow (now : Nat) (a : SponsoredAccount) (r : Row) : Row :=
  { r with
    status := a.status
    lastChecked := some now
    initialTimestamp := some (a.initialTimestamp.getD 0)
    reclaimedAt := ((jsOrNullNat a.reclaimedAt).orElse (fun _ => r.reclaimedAt))
    reclaimSignature := ((jsOrNullStr a.reclaimSignature).orElse (fun _ => r.reclaimSignature))
    sponsorshipSource := ((jsOrNullStr a.sponsorshipSource).orElse (fun _ => r.sponsorshipSource))
    memo := ((jsOrNullStr a.memo).orElse (fun _ => r.memo)) }

def upsertSponsoredAccount (db : Db) (now : Nat) (a : SponsoredAccount) : Db :=
  if db.accounts.any (fun e => e.1 = a.pubkey) then
    dbModifyRow db a.pubkey (mergeRow now a)
  else
    { db with accounts := db.accounts ++ [(a.pubkey, insertRow now a)] }

def batchUpsertAccounts (db : Db) (now : Nat) : List SponsoredAccount → Db
  | [] => db
  | a :: rest => batchUpsertAccounts (upsertSponsoredAccount db now a) now rest

/-! ### `updateCheckpoint` (database.ts)

On conflict the cursor columns take `COALESCE(excluded.x, x)`, every
other column is overwritten by the excluded value; the `last_scan_at`
argument is always `Date.now()`. -/

structure CkptUpdate where
  operator : String
  oldestSignature : Option String := none
  newestSignature : Option String := none
  oldestSlot : Option Nat := none
  newestSlot : Option Nat := none
  totalAccounts : Option Nat := none
  reclaimableCount : Option Nat := none
  reclaimableLamports : Option Int := none
  scanStatus : Option String := none
  firstScanComplete : Option Bool := none
  deriving Repr, DecidableEq

def ckptInsertRow (now : Nat) (u : CkptUpdate) : CkptRow :=
  { oldestSignature := jsOrNullStr u.oldestSignature
  , newestSignature := jsOrNullStr u.newestSignature
  , oldestSlot := jsOrNullNat u.oldestSlot
  , newestSlot := jsOrNullNat u.newestSlot
  , totalAccounts := u.totalAccounts.getD 0
  , reclaimableCount := u.reclaimableCount.getD 0
  , reclaimableLamports := (u.reclaimableLamports.bind
      (fun n => if n = 0 then none else some n)).getD 0
  , scanStatus := ((jsOrNullStr u.scanStatus).getD "pending")
  , firstScanComplete := u.firstScanComplete.getD false
  , lastScanAt := some now }

def ckptMergeRow (now : Nat) (u : CkptUpdate) (c : CkptRow) : CkptRow :=
  { oldestSignature := ((jsOrNullStr u.oldestSignature).orElse (fun _ => c.oldestSignature))
  , newestSignature := ((jsOrNullStr u.newestSignature).orElse (fun _ => c.newestSignature))
  , oldestSlot := ((jsOrNullNat u.oldestSlot).orElse (fun _ => c.oldestSlot))
  , newestSlot := ((jsOrNullNat u.newestSlot).orElse (fun _ => c.newestSlot))
  , totalAccounts := u.totalAccounts.getD 0
  , reclaimableCount := u.reclaimableCount.getD 0
  , reclaimableLamports := (u.reclaimableLamports.bind
      (fun n => if n = 0 then none else some n)).getD 0
  , scanStatus := ((jsOrNullStr u.scanStatus).getD "pending")
  , firstScanComplete := u.firstScanComplete.getD false
  , lastScanAt := some now }

def updateCheckpoint (db : Db) (now : Nat) (u : CkptUpdate) : Db :=
  if db.checkpoints.any (fun e => e.1 = u.operator) then
    { db with checkpoints := db.checkpoints.map (fun e =>
        if e.1 = u.operator then (e.1, ckptMergeRow now u e.2) else e) }
  else
    { db with checkpoints := db.checkpoints ++ [(u.operator, ckptInsertRow now u)] }

/-! ### `getReclaimableAccounts` / `getOperatorStats` (database.ts)

The row-to-object mapping of `getReclaimableAccounts` produces no
`closedAt` property (the column does not exist); the view's `closedAt`
is therefore always `none`, which is what `reclaimAllEligible`'s
cool-down filter reads. -/

structure AccountView where
  pubkey : String
  operator : String
  userWallet : String
  mint : String
  type : String
  rentPaid : Int
  signature : String
  slot : Nat
  initialTimestamp : Option Nat
  status : String
  closedAt : Option Nat
  deriving Repr, DecidableEq

def rowToView (pk : String) (r : Row) : AccountView :=
  { pubkey := pk, operator := r.operator, userWallet := r.userWallet
  , mint := r.mint, type := r.type, rentPaid := r.rentPaid
  , signature := r.signature, slot := r.slot
  , initialTimestamp := r.initialTimestamp, status := r.status
  , closedAt := none }

def getReclaimableAccounts (db : Db) : List AccountView :=
  (db.accounts.filter (fun e => e.2.status = "reclaimable")).map
    (fun e => rowToView e.1 e.2)

structure OperatorStats where
  totalAccounts : Nat
  activeAccounts : Nat
  closedAccounts : Nat
  reclaimableAccounts : Nat
  reclaimableLamports : Int
  lockedAccounts : Nat
  deriving Repr, DecidableEq

def getOperatorStats (db : Db) (op : String) : OperatorStats :=
  let rows := (db.accounts.filter (fun e => e.2.operator = op)).map (fun e => e.2)
  { totalAccounts := rows.length
  , activeAccounts := (rows.filter (fun r => r.status = "active")).length
  , closedAccounts := (rows.filter (fun r => r.status = "closed")).length
  , reclaimableAccounts := (rows.filter (fun r => r.status = "reclaimable")).length
  , reclaimableLamports :=
      ((rows.filter (fun r => r.status = "reclaimable")).map (fun r => r.rentPaid)).sum
  , lockedAccounts := (rows.filter (fun r => r.status = "locked")).length }

/-! ### The Reclaim Engine (webhook-handler.ts, class Reclaimer)

Network submission is an oracle `List String → Except String String`:
the list of pubkeys whose close instructions the transaction carries,
the result either the confirmed signature or the thrown error message.
Every submission attempt is recorded in a trace. -/

structure ReclaimConfig where
  dryRun : Bool
  whitelist : List String
  /-- The `RECLAIM_CIRCUIT_BREAKER_SOL` ceiling (0 = disabled). -/
  circuitBreakerSol : ℚ
  /-- The `RECLAIM_COOL_DOWN_DAYS` setting (0 = disabled). -/
  coolDownDays : ℚ
  /-- The `RECLAIM_BATCH_SIZE` setting (default 15). -/
  batchSize : Nat
  deriving Repr

def SubmitOracle : Type := List String → Except String String

structure ReclaimResult where
  success : Nat
  failed : Nat
  sol : ℚ
  deriving Repr, DecidableEq

/-- Result of one `reclaimSingle` call. -/
structure SingleRes where
  ok : Bool
  sol : ℚ
  db : Db
  trace : List (List String)

/-- Result of a batch (or of the whole batched run). -/
structure BatchRes where
  res : ReclaimResult
  db : Db
  trace : List (List String)

/-- The `batchFetchAccounts` double-tap pre-fetch.  Whitelisted
addresses are skipped before fetching; missing accounts are marked
`closed`; token accounts whose decoded amount is non-zero are revived
to `active` and dropped; non-token accounts are marked `active` and
dropped; only existing zero-balance token accounts are returned.
(The source fetches in chunks of 100; with a fixed chain snapshot and
no fetch errors that chunking is observationally the per-item fold
below.  A string that is not a valid base58 pubkey is only warned
about; validity is not modelled.) -/
def batchFetchAccounts (cfg : ReclaimConfig) (chain : Chain) (now : Nat) :
    List String → Db → (List (String × AccountInfo) × Db)
  | [], db => ([], db)
  | s :: rest, db =>
    if s ∈ cfg.whitelist then
      batchFetchAccounts cfg chain now rest db
    else
      match chain s with
      | none =>
          let db' := if cfg.dryRun then db else updateAccountStatus db s "closed" now none none
          batchFetchAccounts cfg chain now rest db'
      | some info =>
          if isTokenProgram info.owner then
            match info.tokenData with
            | some d =>
                if d.amount > 0 then
                  let db' := if cfg.dryRun then db else
                    batchUpdateAccountMetadata db now
                      [{ pubkey := s, status := some "active",
                         errorMessage := some "Revived: Non-zero token balance" }]
                  batchFetchAccounts cfg chain now rest db'
                else
                  let r := batchFetchAccounts cfg chain now rest db
                  ((s, info) :: r.1, r.2)
            | none =>
                -- decode threw: warn and skip
                batchFetchAccounts cfg chain now rest db
          else
            let db' := if cfg.dryRun then db else updateAccountStatus db s "active" now none none
            batchFetchAccounts cfg chain now rest db'

/-- The `reclaimSingle` fallback: one close instruction per transaction; on success
status goes to `reclaimed` with timestamp and signature (plus a
metadata update whose `reclaimedAmount` the store ignores); on failure
status goes to `error` with an `errorMessage` the store also ignores. -/
def reclaimSingle (cfg : ReclaimConfig) (submit : SubmitOracle) (now : Nat)
    (pk : String) (info : AccountInfo) (db : Db) : SingleRes :=
  if cfg.dryRun then ⟨true, (info.lamports : ℚ) / 1000000000, db, []⟩
  else
    match submit [pk] with
    | .ok sig =>
        let db1 := updateAccountStatus db pk "reclaimed" now (some now) (some sig)
        let db2 := batchUpdateAccountMetadata db1 now
          [{ pubkey := pk, reclaimedAmount := some info.lamports }]
        ⟨true, (info.lamports : ℚ) / 1000000000, db2, [[pk]]⟩
    | .error msg =>
        let db' := batchUpdateAccountMetadata db now
          [{ pubkey := pk, status := some "error", errorMessage := some msg }]
        ⟨false, 0, db', [[pk]]⟩

/-- The per-account fallback loop run when the atomic batch fails. -/
def reclaimSingleFold (cfg : ReclaimConfig) (submit : SubmitOracle) (now : Nat) :
    List (String × AccountInfo) → Db → BatchRes
  | [], db => ⟨⟨0, 0, 0⟩, db, []⟩
  | a :: rest, db =>
      let s1 := reclaimSingle cfg submit now a.1 a.2 db
      let s2 := reclaimSingleFold cfg submit now rest s1.db
      ⟨⟨(if s1.ok then 1 else 0) + s2.res.success,
        (if s1.ok then 0 else 1) + s2.res.failed,
        (if s1.ok then s1.sol else 0) + s2.res.sol⟩, s2.db, s1.trace ++ s2.trace⟩

/-- After a successful atomic batch: for each member, a (not awaited but
executed) `updateAccountStatus(pk, reclaimed, now, signature)` plus a
metadata update carrying the exact lamports, which the store ignores. -/
def recordBatchSuccess (now : Nat) (sig : String) :
    List (String × AccountInfo) → Db → Db
  | [], db => db
  | (pk, info) :: rest, db =>
      let db1 := updateAccountStatus db pk "reclaimed" now (some now) (some sig)
      let db2 := batchUpdateAccountMetadata db1 now
        [{ pubkey := pk, reclaimedAmount := some info.lamports }]
      recordBatchSuccess now sig rest db2

def batchLamports (accounts : List (String × AccountInfo)) : Nat :=
  (accounts.map (fun a => a.2.lamports)).sum

/-- The `reclaimBatch` step (of the safety-configured Reclaimer): circuit breaker,
dry-run short-circuit, atomic submit, and per-account fallback. -/
def reclaimBatch (cfg : ReclaimConfig) (submit : SubmitOracle) (now : Nat)
    (accounts : List (String × AccountInfo)) (db : Db) : BatchRes :=
  if accounts.isEmpty then ⟨⟨0, 0, 0⟩, db, []⟩
  else
    let potentialSol : ℚ := (batchLamports accounts : ℚ) / 1000000000
    if cfg.circuitBreakerSol > 0 ∧ potentialSol > cfg.circuitBreakerSol ∧ ¬cfg.dryRun then
      let db' := batchUpdateAccountMetadata db now (accounts.map (fun a =>
        { pubkey := a.1, status := some "error",
          errorMessage := some "Circuit Breaker Tripped" }))
      ⟨⟨0, accounts.length, 0⟩, db', []⟩
    else if cfg.dryRun then
      ⟨⟨accounts.length, 0, potentialSol⟩, db, []⟩
    else
      let validPubkeys := accounts.map (fun a => a.1)
      let totalLamports := batchLamports accounts
      if validPubkeys.isEmpty then ⟨⟨0, 0, 0⟩, db, []⟩
      else
        match submit validPubkeys with
        | .ok sig =>
            -- first metadata pass: status reclaimed, reclaimedAmount 0 (ignored)
            let db1 := batchUpdateAccountMetadata db now (validPubkeys.map (fun pk =>
              { pubkey := pk, status := some "reclaimed", reclaimedAmount := some 0 }))
            let db2 := recordBatchSuccess now sig accounts db1
            ⟨⟨validPubkeys.length, 0, (totalLamports : ℚ) / 1000000000⟩, db2, [validPubkeys]⟩
        | .error _ =>
            let s := reclaimSingleFold cfg submit now accounts db
            ⟨s.res, s.db, validPubkeys :: s.trace⟩

/-- Split a list into the transaction batches of `reclaimAccounts`. -/
def chunkList (n : Nat) : List α → List (List α)
  | [] => []
  | x :: xs => (x :: xs.take (n - 1)) :: chunkList n (xs.drop (n - 1))
  termination_by l => l.length
  decreasing_by simp; omega

def reclaimBatchFold (cfg : ReclaimConfig) (submit : SubmitOracle) (now : Nat) :
    List (List (String × AccountInfo)) → Db → BatchRes
  | [], db => ⟨⟨0, 0, 0⟩, db, []⟩
  | b :: rest, db =>
      let s1 := reclaimBatch cfg submit now b db
      let s2 := reclaimBatchFold cfg submit now rest s1.db
      ⟨⟨s1.res.success + s2.res.success, s1.res.failed + s2.res.failed,
        s1.res.sol + s2.res.sol⟩, s2.db, s1.trace ++ s2.trace⟩

structure ReclaimRun where
  res : ReclaimResult
  db : Db
  /-- Every mutation submission attempted, as its list of closed pubkeys. -/
  trace : List (List String)
  /-- The double-tap-verified accounts that were batched. -/
  fetched : List (String × AccountInfo)

/-- The `reclaimAccounts` operation: double-tap pre-fetch, then sequential batches. -/
def reclaimAccounts (cfg : ReclaimConfig) (submit : SubmitOracle) (chain : Chain)
    (now : Nat) (pubkeyStrs : List String) (db : Db) : ReclaimRun :=
  let fetched := (batchFetchAccounts cfg chain now pubkeyStrs db).1
  let db1 := (batchFetchAccounts cfg chain now pubkeyStrs db).2
  let s := reclaimBatchFold cfg submit now (chunkList cfg.batchSize fetched) db1
  ⟨s.res, s.db, s.trace, fetched⟩

/-- The eligibility filter of `reclaimAllEligible`: whitelist first,
then the (enabled) cool-down filter, which reads the `closedAt`
property of the fetched views. -/
def reclaimEligibleFilter (cfg : ReclaimConfig) (now : Nat)
    (reclaimableAccounts : List AccountView) : List AccountView :=
  let nonWhitelisted := reclaimableAccounts.filter (fun a => a.pubkey ∉ cfg.whitelist)
  if cfg.coolDownDays > 0 then
    let minAgeMs : ℚ := cfg.coolDownDays * 24 * 60 * 60 * 1000
    nonWhitelisted.filter (fun a =>
      match a.closedAt with
      | none => true
      | some t => (now : ℚ) - (t : ℚ) ≥ minAgeMs)
  else nonWhitelisted

/-- The `reclaimAllEligible` operation (treasury sweep omitted: it touches no account
records). -/
def reclaimAllEligible (cfg : ReclaimConfig) (submit : SubmitOracle) (chain : Chain)
    (now : Nat) (db : Db) : ReclaimRun :=
  let eligible := reclaimEligibleFilter cfg now (getReclaimableAccounts db)
  reclaimAccounts cfg submit chain now (eligible.map (fun a => a.pubkey)) db

/-! ### The Verifier (analyzer.ts, Analyzer.analyzeAccounts)

The analyzer consumes discovered-account candidates and the current
chain state.  Per candidate:
  * fetch returned nothing → a `closed` result,
  * a token-program account with at least `ACCOUNT_SIZE` bytes and a
    zero decoded amount → result whose `canReclaim` is whether the
    effective close authority (the explicit closeAuthority when the
    option flag is 1, otherwise the owner) is the operator, with a
    descriptive reason on mismatch,
  * anything else → no result.
(The source decodes without a try/catch here; decoding a ≥165-byte
account is total, and `tokenData = none` in that situation would abort
the whole source batch, likewise yielding no result for it.) -/

structure DiscoveredAccount where
  pubkey : String
  userWallet : String
  mint : String
  type : String
  rentPaid : Int
  signature : String
  slot : Nat
  timestamp : Nat := 0
  sponsorshipSource : String := "UNKNOWN"
  memo : String := ""
  deriving Repr, DecidableEq

structure ReclaimableAccount where
  pubkey : String
  userWallet : String
  type : String
  lamports : Nat
  canReclaim : Bool
  status : Option String := none
  reason : Option String := none
  deriving Repr, DecidableEq

/-- The closeAuthority the source computes: the explicit close
authority when `closeAuthorityOption == 1`, else the token owner. -/
def effectiveCloseAuthority (d : TokenData) : String :=
  if d.closeAuthorityOption = 1 then d.closeAuthority else d.owner

def analyzeOne (chain : Chain) (operator : String) (acc : DiscoveredAccount) :
    Option ReclaimableAccount :=
  match chain acc.pubkey with
  | none =>
      some { pubkey := acc.pubkey, userWallet := acc.userWallet
           , type := acc.type, lamports := 0, canReclaim := false
           , status := some "closed" }
  | some info =>
      if isTokenProgram info.owner ∧ info.dataLen ≥ ACCOUNT_SIZE then
        match info.tokenData with
        | some d =>
            if d.amount = 0 then
              let closeAuthority := effectiveCloseAuthority d
              let canClose := closeAuthority = operator
              some { pubkey := acc.pubkey, userWallet := acc.userWallet
                   , type := if info.owner = TOKEN_2022_PROGRAM_ID then "token-2022" else "token"
                   , lamports := info.lamports
                   , canReclaim := canClose
                   , reason := if canClose then none
                               else some ("Close authority is " ++ closeAuthority) }
            else none
        | none => none
      else none

def analyzeAccounts (chain : Chain) (operator : String)
    (discoveredAccounts : List DiscoveredAccount) : List ReclaimableAccount :=
  discoveredAccounts.filterMap (analyzeOne chain operator)

/-! ### The Discovery Engine (database.ts, class Discoverer)

`HeliusTx` is the uniform enhanced-transaction shape the ledger client
returns; `accountData` carries per-account native balance deltas,
`instructions` the decoded instructions. -/

structure AccountData where
  account : String
  nativeBalanceChange : Int
  deriving Repr, DecidableEq

structure Ix where
  programId : String
  accounts : List String
  deriving Repr, DecidableEq

structure HeliusTx where
  signature : String
  slot : Nat
  timestamp : Nat
  fee : Nat
  feePayer : String
  txType : String
  source : String := "UNKNOWN"
  accountData : List AccountData
  instructions : List Ix
  deriving Repr, DecidableEq

/-- The rent value `processTransaction` compares against:
`this.cachedRent || 2039280`. -/
def rentUsed (cachedRent : Option Nat) : Nat :=
  match cachedRent with
  | some r => if r = 0 then TOKEN_ACCOUNT_RENT else r
  | none => TOKEN_ACCOUNT_RENT

/-- The instruction scan of `Discoverer.processTransaction`: the first
instruction matching the associated-token-account creation pattern for
`acc` ([payer, ata, owner, mint, system, token...]) wins.  Iterations
that enter the outer token-program condition but not the ATA pattern
change nothing, so the loop is this `find?`. -/
def findCreationIx (instructions : List Ix) (acc : String) : Option Ix :=
  instructions.find? (fun ix =>
    ix.programId = ASSOCIATED_TOKEN_PROGRAM_ID ∧ ix.accounts.length ≥ 4 ∧
      ix.accounts[1]? = some acc)

/-- Candidate extraction for one `accountData` entry. -/
def extractCandidate (cachedRent : Option Nat) (operator : String) (tx : HeliusTx)
    (ad : AccountData) : Option DiscoveredAccount :=
  let acc := ad.account
  let rent : Int := (rentUsed cachedRent : Int)
  if (ad.nativeBalanceChange - rent).natAbs < 100 then
    if acc = operator ∨ acc ∈ SYSTEM_ADDRESSES then none
    else
      let parsed : String × String × String :=
        match findCreationIx tx.instructions acc with
        | some ix =>
            ( if ix.accounts[5]? = some TOKEN_2022_PROGRAM_ID then "token-2022" else "token"
            , (ix.accounts[2]?).getD ""
            , (ix.accounts[3]?).getD "" )
        | none => ("system", "", "")
      let type := parsed.1
      let mint := parsed.2.2
      let userWallet :=
        if parsed.2.1 = "" then
          match tx.accountData.find? (fun a =>
            a.account ≠ operator ∧ a.account ≠ acc ∧ a.account ∉ SYSTEM_ADDRESSES) with
          | some c => c.account
          | none => ""
        else parsed.2.1
      if type = "token" ∨ type = "token-2022" then
        some { pubkey := acc, userWallet := userWallet, mint := mint, type := type
             , rentPaid := ad.nativeBalanceChange, signature := tx.signature
             , slot := tx.slot, timestamp := tx.timestamp
             , sponsorshipSource := tx.source, memo := "" }
      else none
  else none

/-- The `Discoverer.processTransaction` extraction: fee-payer gate, event-type gate,
then per-account candidate extraction. -/
def processTransaction (cachedRent : Option Nat) (operator : String)
    (tx : HeliusTx) : List DiscoveredAccount :=
  if tx.feePayer ≠ operator then []
  else if tx.txType ≠ "CREATE_ACCOUNT" ∧ tx.txType ≠ "SET_AUTHORITY" ∧ tx.txType ≠ "UNKNOWN"
  then []
  else tx.accountData.filterMap (extractCandidate cachedRent operator tx)

/-! ### `Discoverer.saveAccounts` (database.ts)

Candidates are flushed through the Verifier; only results that are
reclaimable or carry the literal reason `authority_mismatch` are
persisted.  (The analyzer of analyzer.ts produces descriptive
`Close authority is ...` reasons, never that literal.)  The source
reads `a.mint` off the analyzer result, which carries no such
property, so the stored mint is the SQL NULL, here `""`. -/

def saveAccounts (chain : Chain) (operator : String) (now : Nat)
    (accounts : List DiscoveredAccount) (db : Db) : Db :=
  if accounts.isEmpty then db
  else
    let analyzed := analyzeAccounts chain operator accounts
    let verified := analyzed.filter (fun a =>
      a.canReclaim || a.reason = some "authority_mismatch")
    if verified.isEmpty then db
    else
      let toSave : List SponsoredAccount := verified.map (fun a =>
        let original := accounts.find? (fun o => o.pubkey = a.pubkey)
        { pubkey := a.pubkey
        , operator := operator
        , userWallet := a.userWallet
        , mint := ""
        , type := a.type
        , rentPaid := (a.lamports : Int)
        , signature := ((jsOrNullStr (original.map (fun o => o.signature))).getD "UNKNOWN")
        , slot := ((jsOrNullNat (original.map (fun o => o.slot))).getD 0)
        , initialTimestamp := some ((jsOrNullNat (original.map (fun o => o.timestamp))).getD now)
        , sponsorshipSource :=
            some ((jsOrNullStr (original.map (fun o => o.sponsorshipSource))).getD "UNKNOWN")
        , memo := some ((jsOrNullStr (original.map (fun o => o.memo))).getD "")
        , status := if a.canReclaim then "reclaimable" else "locked" })
      batchUpsertAccounts db now toSave

/-! ### `Discoverer.fullScan` (database.ts): the historical fill

The provider is a script of page-fetch outcomes consumed in order.
The loop stops on an empty page (history exhausted), on a provider
error, or at the optional item cap; running out of script is the
artificial `fuel` stop.  The source keeps only a processed-transaction
counter; the embedding additionally keeps the processed pages (the
counter is their joined length) and the list of candidates flushed to
`saveAccounts`, as those are what the claims speak about. -/

inductive FetchResult where
  | page (txs : List HeliusTx)
  | fail
  deriving Repr, DecidableEq

inductive StopCause where
  | emptyPage | cap | err | fuel | skipped
  deriving Repr, DecidableEq

structure ScanSt where
  before : Option String
  newestSig : Option String
  newestSlot : Option Nat
  oldestSig : Option String
  oldestSlot : Option Nat
  totalProcessed : Nat
  pending : List DiscoveredAccount
  flushed : List DiscoveredAccount
  pagesDone : List (List HeliusTx)
  db : Db

/-- Processing of one non-empty fetched page: boundary tracking,
candidate extraction, and the every-50-candidates flush with its
intermediate checkpoint write. -/
def scanPageStep (chain : Chain) (cachedRent : Option Nat) (operator : String)
    (now : Nat) (t : HeliusTx) (ts : List HeliusTx) (st : ScanSt) : ScanSt :=
  let txs := t :: ts
  let last := txs.getLast (by simp)
  let st1 : ScanSt :=
    { st with
      newestSig := if st.newestSig.isNone then some t.signature else st.newestSig
      newestSlot := if st.newestSig.isNone then some t.slot else st.newestSlot
      oldestSig := some last.signature
      oldestSlot := some last.slot
      pending := st.pending ++ txs.flatMap (processTransaction cachedRent operator)
      pagesDone := st.pagesDone ++ [txs]
      totalProcessed := st.totalProcessed + txs.length
      before := some last.signature }
  if st1.pending.length ≥ 50 then
    let db1 := saveAccounts chain operator now st1.pending st1.db
    let db2 := updateCheckpoint db1 now
      { operator := operator
      , oldestSignature := st1.oldestSig, oldestSlot := st1.oldestSlot
      , newestSignature := st1.newestSig, newestSlot := st1.newestSlot
      , scanStatus := some "scanning" }
    { st1 with pending := [], flushed := st1.flushed ++ st1.pending, db := db2 }
  else st1

def fullScanLoop (chain : Chain) (cachedRent : Option Nat) (operator : String)
    (limit : Option Nat) (now : Nat) :
    List FetchResult → ScanSt → (ScanSt × StopCause)
  | [], st => (st, .fuel)
  | .fail :: _, st => (st, .err)
  | .page [] :: _, st => (st, .emptyPage)
  | .page (t :: ts) :: rest, st =>
      let st2 := scanPageStep chain cachedRent operator now t ts st
      match limit with
      | some l => if st2.totalProcessed ≥ l then (st2, .cap)
                  else fullScanLoop chain cachedRent operator limit now rest st2
      | none => fullScanLoop chain cachedRent operator limit now rest st2

def initialScanSt (ck : Option CkptRow) (db : Db) : ScanSt :=
  { before := ck.bind (fun c => c.oldestSignature)
  , newestSig := ck.bind (fun c => c.newestSignature)
  , newestSlot := ck.bind (fun c => c.newestSlot)
  , oldestSig := ck.bind (fun c => c.oldestSignature)
  , oldestSlot := ck.bind (fun c => c.oldestSlot)
  , totalProcessed := 0, pending := [], flushed := [], pagesDone := []
  , db := db }

/-- After the loop: save the remaining candidates, then write the
final checkpoint for this run (`scanStatus = complete`,
`firstScanComplete = reachedEnd`). -/
def fullScanFinish (chain : Chain) (operator : String) (now : Nat)
    (cause : StopCause) (st : ScanSt) : ScanSt :=
  let db1 := if st.pending.isEmpty then st.db
             else saveAccounts chain operator now st.pending st.db
  let flushedAll := if st.pending.isEmpty then st.flushed else st.flushed ++ st.pending
  let stats := getOperatorStats db1 operator
  let db2 := updateCheckpoint db1 now
    { operator := operator
    , oldestSignature := st.oldestSig, newestSignature := st.newestSig
    , oldestSlot := st.oldestSlot, newestSlot := st.newestSlot
    , totalAccounts := some stats.totalAccounts
    , reclaimableCount := some stats.reclaimableAccounts
    , reclaimableLamports := some stats.reclaimableLamports
    , scanStatus := some "complete"
    , firstScanComplete := some (cause = .emptyPage) }
  { st with pending := [], flushed := flushedAll, db := db2 }

def fullScan (chain : Chain) (cachedRent : Option Nat) (operator : String)
    (limit : Option Nat) (now : Nat) (script : List FetchResult) (db : Db) :
    ScanSt × StopCause :=
  let ck := dbGetCheckpoint db operator
  if (ck.map (fun c => c.firstScanComplete)).getD false then
    (initialScanSt ck db, .skipped)
  else
    let db0 := updateCheckpoint db now
      { operator := operator, scanStatus := some "scanning", firstScanComplete := some false }
    let run := fullScanLoop chain cachedRent operator limit now script (initialScanSt ck db0)
    (fullScanFinish chain operator now run.2 run.1, run.2)

/-- The oldest cursor the processed pages justify: the signature of
the last transaction of the last fully processed page. -/
def pageOldest (pagesDone : List (List HeliusTx)) : Option String :=
  pagesDone.getLast?.bind (fun pg => (pg.getLast?).map (fun t => t.signature))


/-! ### Store lemmas -/

theorem dbModifyRow_lookup_ne (db : Db) (pk q : String) (f : Row → Row)
    (h : ¬ q = pk) : dbLookup (dbModifyRow db pk f) q = dbLookup db q := by
  unfold dbLookup dbModifyRow
  rw [List.find?_map]
  have hp : ((fun (e : String × Row) => decide (e.1 = q)) ∘
      (fun e => if e.1 = pk then (e.1, f e.2) else e))
      = fun (e : String × Row) => decide (e.1 = q) := by
    funext e
    by_cases hh : e.1 = pk <;> simp [hh]
  rw [hp]
  cases hf : db.accounts.find? (fun e => decide (e.1 = q)) with
  | none => simp
  | some e =>
    have he : e.1 = q := by simpa using List.find?_some hf
    have hne : ¬ (e.1 = pk) := fun hh => h (he ▸ hh)
    simp [hne]

theorem dbModifyRow_lookup_eq (db : Db) (pk : String) (f : Row → Row) :
    dbLookup (dbModifyRow db pk f) pk = (dbLookup db pk).map f := by
  unfold dbLookup dbModifyRow
  rw [List.find?_map]
  have hp : ((fun (e : String × Row) => decide (e.1 = pk)) ∘
      (fun e => if e.1 = pk then (e.1, f e.2) else e))
      = fun (e : String × Row) => decide (e.1 = pk) := by
    funext e
    by_cases hh : e.1 = pk <;> simp [hh]
  rw [hp]
  cases hf : db.accounts.find? (fun e => decide (e.1 = pk)) with
  | none => simp
  | some e =>
    have he : e.1 = pk := by simpa using List.find?_some hf
    simp [he]

theorem dbModifyRow_lookup_map {β : Type} (db : Db) (pk q : String) (f : Row → Row)
    (g : Row → β) (hg : ∀ r, g (f r) = g r) :
    (dbLookup (dbModifyRow db pk f) q).map g = (dbLookup db q).map g := by
  by_cases h : q = pk
  · subst h
    rw [dbModifyRow_lookup_eq]
    cases dbLookup db q <;> simp [hg]
  · rw [dbModifyRow_lookup_ne _ _ _ _ h]

theorem dbModifyRow_checkpoints (db : Db) (pk : String) (f : Row → Row) :
    (dbModifyRow db pk f).checkpoints = db.checkpoints := rfl

/-- A `batchUpdateAccountMetadata` call never touches a row whose key no
update names. -/
theorem batchUpdateAccountMetadata_frame (now : Nat) (us : List MetaUpdate) :
    ∀ (db : Db) (q : String), (∀ u ∈ us, ¬ q = u.pubkey) →
      dbLookup (batchUpdateAccountMetadata db now us) q = dbLookup db q := by
  induction us with
  | nil => intro db q _; rfl
  | cons u rest ih =>
    intro db q hq
    rw [batchUpdateAccountMetadata, ih _ _ (fun v hv => hq v (List.mem_cons_of_mem _ hv)),
      dbModifyRow_lookup_ne _ _ _ _ (hq u (List.mem_cons_self _ _))]

/-- Any per-row field that every named update's application preserves
is preserved by the whole batch. -/
theorem batchUpdateAccountMetadata_lookup_map {β : Type} (now : Nat)
    (us : List MetaUpdate) (g : Row → β)
    (hg : ∀ u ∈ us, ∀ r, g (applyMetaUpdate now u r) = g r) :
    ∀ (db : Db) (q : String),
      (dbLookup (batchUpdateAccountMetadata db now us) q).map g = (dbLookup db q).map g := by
  induction us with
  | nil => intro db q; rfl
  | cons u rest ih =>
    intro db q
    rw [batchUpdateAccountMetadata,
      ih (fun v hv => hg v (List.mem_cons_of_mem _ hv)) _ _,
      dbModifyRow_lookup_map _ _ _ _ _ (hg u (List.mem_cons_self _ _))]

theorem applyMetaUpdate_errorMessage (now : Nat) (u : MetaUpdate) (r : Row) :
    (applyMetaUpdate now u r).errorMessage = r.errorMessage := rfl

theorem applyMetaUpdate_reclaimedAmount (now : Nat) (u : MetaUpdate) (r : Row) :
    (applyMetaUpdate now u r).reclaimedAmount = r.reclaimedAmount := rfl

theorem updateAccountStatus_lookup_ne (db : Db) (pk q : String) (st : String)
    (now : Nat) (ra : Option Nat) (rs : Option String) (h : ¬ q = pk) :
    dbLookup (updateAccountStatus db pk st now ra rs) q = dbLookup db q := by
  unfold updateAccountStatus
  exact dbModifyRow_lookup_ne _ _ _ _ h

theorem updateAccountStatus_reclaimedAmount (db : Db) (pk q : String) (st : String)
    (now : Nat) (ra : Option Nat) (rs : Option String) :
    (dbLookup (updateAccountStatus db pk st now ra rs) q).map (fun r => r.reclaimedAmount)
      = (dbLookup db q).map (fun r => r.reclaimedAmount) := by
  unfold updateAccountStatus
  apply dbModifyRow_lookup_map
  intro r
  dsimp only
  split <;> rfl

theorem updateAccountStatus_errorMessage (db : Db) (pk q : String) (st : String)
    (now : Nat) (ra : Option Nat) (rs : Option String) :
    (dbLookup (updateAccountStatus db pk st now ra rs) q).map (fun r => r.errorMessage)
      = (dbLookup db q).map (fun r => r.errorMessage) := by
  unfold updateAccountStatus
  apply dbModifyRow_lookup_map
  intro r
  dsimp only
  split <;> rfl

/-! ### Upsert lemmas (towards the idempotence claim) -/

theorem mergeRow_mergeRow (now : Nat) (a : SponsoredAccount) (r : Row) :
    mergeRow now a (mergeRow now a r) = mergeRow now a r := by
  unfold mergeRow
  cases h1 : jsOrNullNat a.reclaimedAt <;>
    cases h2 : jsOrNullStr a.reclaimSignature <;>
      cases h3 : jsOrNullStr a.sponsorshipSource <;>
        cases h4 : jsOrNullStr a.memo <;>
          simp [Option.orElse]

theorem mergeRow_insertRow (now : Nat) (a : SponsoredAccount) :
    mergeRow now a (insertRow now a) = insertRow now a := by
  unfold mergeRow insertRow
  cases h1 : jsOrNullNat a.reclaimedAt <;>
    cases h2 : jsOrNullStr a.reclaimSignature <;>
      cases h3 : jsOrNullStr a.sponsorshipSource <;>
        cases h4 : jsOrNullStr a.memo <;>
          simp [Option.orElse]

theorem dbModifyRow_comp (db : Db) (pk : String) (f g : Row → Row) :
    dbModifyRow (dbModifyRow db pk f) pk g = dbModifyRow db pk (fun r => g (f r)) := by
  unfold dbModifyRow
  simp only [List.map_map]
  congr 1
  congr 1
  funext e
  by_cases h : e.1 = pk <;> simp [h]

theorem dbModifyRow_keys (db : Db) (pk : String) (f : Row → Row) :
    (dbModifyRow db pk f).accounts.map Prod.fst = db.accounts.map Prod.fst := by
  unfold dbModifyRow
  simp only [List.map_map]
  congr 1
  funext e
  by_cases h : e.1 = pk <;> simp [h]

theorem dbModifyRow_any_key (db : Db) (pk k : String) (f : Row → Row) :
    (dbModifyRow db pk f).accounts.any (fun e => e.1 = k)
      = db.accounts.any (fun e => e.1 = k) := by
  unfold dbModifyRow
  rw [List.any_map]
  congr 1
  funext e
  by_cases h : e.1 = pk <;> simp [h]

theorem upsert_twice_eq (db : Db) (now : Nat) (a : SponsoredAccount) :
    upsertSponsoredAccount (upsertSponsoredAccount db now a) now a
      = upsertSponsoredAccount db now a := by
  unfold upsertSponsoredAccount
  by_cases h : db.accounts.any (fun e => e.1 = a.pubkey) = true
  · simp only [h, if_true, dbModifyRow_any_key, dbModifyRow_comp]
    congr 1
    funext r
    exact mergeRow_mergeRow now a r
  · simp only [h, Bool.false_eq_true, if_false]
    have hcond : (({ db with accounts := db.accounts ++ [(a.pubkey, insertRow now a)] } :
        Db).accounts.any (fun e => e.1 = a.pubkey)) = true :=
      List.any_eq_true.mpr ⟨(a.pubkey, insertRow now a), by simp, by simp⟩
    rw [if_pos hcond]
    unfold dbModifyRow
    simp only [List.map_append]
    have hkeys : ∀ e ∈ db.accounts, ¬ (e.1 = a.pubkey) := by
      intro e he heq
      exact h (List.any_eq_true.mpr ⟨e, he, by simp [heq]⟩)
    have hmapid : db.accounts.map
        (fun e => if e.1 = a.pubkey then (e.1, mergeRow now a e.2) else e) = db.accounts := by
      conv_rhs => rw [← List.map_id db.accounts]
      apply List.map_congr_left
      intro e he
      simp [hkeys e he]
    congr 1
    rw [hmapid]
    simp [mergeRow_insertRow]

/-- C10 — applying the same candidate-account upsert twice yields stored
state identical to applying it once; the pubkey stays a unique key (no
duplicate row appears), and in particular the stored status after the
second application is the status after the first (no regression). -/
theorem c10_idempotent_upsert (db : Db) (now : Nat) (a : SponsoredAccount) :
    upsertSponsoredAccount (upsertSponsoredAccount db now a) now a
        = upsertSponsoredAccount db now a
    ∧ ((db.accounts.map Prod.fst).Nodup →
        ((upsertSponsoredAccount db now a).accounts.map Prod.fst).Nodup)
    ∧ statusOf (upsertSponsoredAccount (upsertSponsoredAccount db now a) now a) a.pubkey
        = statusOf (upsertSponsoredAccount db now a) a.pubkey := by
  refine ⟨upsert_twice_eq db now a, ?_, ?_⟩
  · intro hnodup
    unfold upsertSponsoredAccount
    by_cases h : db.accounts.any (fun e => e.1 = a.pubkey) = true
    · simpa only [h, if_true, dbModifyRow_keys] using hnodup
    · have hkeys : ∀ e ∈ db.accounts, ¬ (e.1 = a.pubkey) := by
        intro e he heq
        exact h (List.any_eq_true.mpr ⟨e, he, by simp [heq]⟩)
      have hnotmem : a.pubkey ∉ db.accounts.map Prod.fst := by
        intro hmem
        obtain ⟨e, he, heq⟩ := List.mem_map.mp hmem
        exact hkeys e he heq
      simp only [h, Bool.false_eq_true, if_false]
      show (List.map Prod.fst (db.accounts ++ [(a.pubkey, insertRow now a)])).Nodup
      rw [List.map_append]
      refine List.Nodup.append hnodup (by simp) ?_
      intro x hx hmem
      have hx2 : x = a.pubkey := by simpa using hmem
      exact hnotmem (hx2 ▸ hx)
  · exact congrArg (fun d => statusOf d a.pubkey) (upsert_twice_eq db now a)

/-! ### Concrete fixtures for witnesses and counterexamples -/

def wRow : Row :=
  { operator := "OP", userWallet := "USER", mint := "MINT", type := "token"
  , rentPaid := 2039280, signature := "SIG0", slot := 7, status := "reclaimable"
  , lastChecked := none, initialTimestamp := some 1000, reclaimedAt := none
  , reclaimSignature := none, sponsorshipSource := none, memo := none
  , errorMessage := none, reclaimedAmount := none }

def wAcc : SponsoredAccount :=
  { pubkey := "PK1", operator := "OP", userWallet := "USER", mint := "MINT"
  , type := "token", rentPaid := 2039280, signature := "SIG0", slot := 7
  , status := "reclaimable" }

def wDb : Db := { accounts := [("PK1", wRow)], checkpoints := [] }

theorem c10_idempotent_upsert_witness :
    ((wDb.accounts.map Prod.fst).Nodup) ∧
      ((upsertSponsoredAccount wDb 5 wAcc).accounts.map Prod.fst).Nodup :=
  ⟨by decide, (c10_idempotent_upsert wDb 5 wAcc).2.1 (by decide)⟩

/-! ### C4 — checkpoint cursor merge -/

theorem updateCheckpoint_lookup_self (db : Db) (now : Nat) (u : CkptUpdate) :
    dbGetCheckpoint (updateCheckpoint db now u) u.operator =
      some (match dbGetCheckpoint db u.operator with
            | some c => ckptMergeRow now u c
            | none => ckptInsertRow now u) := by
  unfold updateCheckpoint dbGetCheckpoint
  by_cases h : db.checkpoints.any (fun e => e.1 = u.operator) = true
  · rw [if_pos h]
    show ((db.checkpoints.map (fun e =>
        if e.1 = u.operator then (e.1, ckptMergeRow now u e.2) else e)).find?
          (fun e => e.1 = u.operator)).map (fun e => e.2) = _
    rw [List.find?_map]
    have hp : ((fun (e : String × CkptRow) => decide (e.1 = u.operator)) ∘
        (fun e => if e.1 = u.operator then (e.1, ckptMergeRow now u e.2) else e))
        = fun (e : String × CkptRow) => decide (e.1 = u.operator) := by
      funext e
      by_cases hh : e.1 = u.operator <;> simp [hh]
    rw [hp]
    cases hf : db.checkpoints.find? (fun e => decide (e.1 = u.operator)) with
    | none =>
        obtain ⟨e, he, hpe⟩ := List.any_eq_true.mp h
        have := List.find?_eq_none.mp hf e he
        simp at hpe this
        exact absurd hpe this
    | some e =>
        have he : e.1 = u.operator := by simpa using List.find?_some hf
        simp [he]
  · rw [if_neg h]
    show (((db.checkpoints ++ [(u.operator, ckptInsertRow now u)]).find?
        (fun e => e.1 = u.operator)).map (fun e => e.2)) = _
    rw [List.find?_append]
    have hnone : db.checkpoints.find? (fun e => decide (e.1 = u.operator)) = none := by
      rw [List.find?_eq_none]
      intro e he
      simp only [decide_eq_true_eq]
      intro heq
      exact h (List.any_eq_true.mpr ⟨e, he, by simp [heq]⟩)
    rw [hnone]
    simp [hnone]

/-- C4 — counterexample: `UpdateCheckpoint(partial)` does not merge by
range extension; a supplied oldest-slot value overwrites the stored
one even when it is larger.  Stored oldest slot 100, partial update
carrying oldest slot 500: the stored value after the call is 500. -/
theorem c4_counterexample :
    let ck : CkptRow :=
      { oldestSignature := some "S100", newestSignature := some "S200"
      , oldestSlot := some 100, newestSlot := some 200
      , totalAccounts := 0, reclaimableCount := 0, reclaimableLamports := 0
      , scanStatus := "scanning", firstScanComplete := false, lastScanAt := none }
    let db : Db := { accounts := [], checkpoints := [("OP", ck)] }
    let u : CkptUpdate := { operator := "OP", oldestSignature := some "S500"
                          , oldestSlot := some 500 }
    ((dbGetCheckpoint db "OP").bind (fun c => c.oldestSlot)) = some 100 ∧
    ((dbGetCheckpoint (updateCheckpoint db 1 u) "OP").bind (fun c => c.oldestSlot))
        = some 500 ∧
    ¬ (500 ≤ 100) := by decide

/-- C4 (amended) — `updateCheckpoint` COALESCEs each cursor field:
a field the partial omits (or passes as 0 / the empty string) keeps its
stored value, and a supplied field overwrites unconditionally.  Hence
the oldest slot never increases and the newest slot never decreases
exactly when every supplied cursor value already extends the stored
range, which is how the scan loops call it; the merge itself enforces
no monotonicity. -/
theorem c4_checkpoint_merge_conditional_monotonic (db : Db) (now : Nat) (u : CkptUpdate)
    (ck : CkptRow) (h : dbGetCheckpoint db u.operator = some ck)
    (hold : ∀ s ∈ jsOrNullNat u.oldestSlot, ∀ o ∈ ck.oldestSlot, s ≤ o)
    (hnew : ∀ s ∈ jsOrNullNat u.newestSlot, ∀ n ∈ ck.newestSlot, n ≤ s) :
    ∀ ck', dbGetCheckpoint (updateCheckpoint db now u) u.operator = some ck' →
      (∀ o ∈ ck.oldestSlot, ∀ o' ∈ ck'.oldestSlot, o' ≤ o) ∧
      (∀ n ∈ ck.newestSlot, ∀ n' ∈ ck'.newestSlot, n ≤ n') := by
  intro ck' hck'
  rw [updateCheckpoint_lookup_self, h] at hck'
  have hck'eq : ck' = ckptMergeRow now u ck := by
    injection hck' with hh
    exact hh.symm
  subst hck'eq
  constructor
  · intro o ho o' ho'
    unfold ckptMergeRow at ho'
    simp only [Option.orElse] at ho'
    cases hs : jsOrNullNat u.oldestSlot with
    | none =>
        rw [hs] at ho'
        simp only at ho'
        have h1 : ck.oldestSlot = some o := Option.mem_def.mp ho
        have h2 : ck.oldestSlot = some o' := Option.mem_def.mp ho'
        rw [h1] at h2
        injection h2 with h3
        omega
    | some s =>
        rw [hs] at ho'
        simp only [Option.mem_def, Option.some.injEq] at ho'
        subst ho'
        exact hold s (Option.mem_def.mpr hs) o ho
  · intro n hn n' hn'
    unfold ckptMergeRow at hn'
    simp only [Option.orElse] at hn'
    cases hs : jsOrNullNat u.newestSlot with
    | none =>
        rw [hs] at hn'
        simp only at hn'
        have h1 : ck.newestSlot = some n := Option.mem_def.mp hn
        have h2 : ck.newestSlot = some n' := Option.mem_def.mp hn'
        rw [h1] at h2
        injection h2 with h3
        omega
    | some s =>
        rw [hs] at hn'
        simp only [Option.mem_def, Option.some.injEq] at hn'
        subst hn'
        exact hnew s (Option.mem_def.mpr hs) n hn

def c4wCk : CkptRow :=
  { oldestSignature := some "A", newestSignature := some "B"
  , oldestSlot := some 100, newestSlot := some 200, totalAccounts := 0
  , reclaimableCount := 0, reclaimableLamports := 0, scanStatus := "scanning"
  , firstScanComplete := false, lastScanAt := none }

def c4wDb : Db := { accounts := [], checkpoints := [("OP", c4wCk)] }

def c4wU : CkptUpdate := { operator := "OP", oldestSlot := some 50, newestSlot := some 300 }

theorem c4_checkpoint_merge_conditional_monotonic_witness :
    (100 ∈ c4wCk.oldestSlot) ∧ (50 ∈ (ckptMergeRow 9 c4wU c4wCk).oldestSlot) ∧ (50 : ℕ) ≤ 100 :=
  ⟨Option.mem_def.mpr (by decide), Option.mem_def.mpr (by decide),
    (c4_checkpoint_merge_conditional_monotonic c4wDb 9 c4wU c4wCk (by decide)
      (by intro s hs o ho
          have hs2 : s = 50 := by
            have := Option.mem_def.mp hs
            simp [c4wU, jsOrNullNat] at this
            omega
          have ho2 : o = 100 := by
            have := Option.mem_def.mp ho
            simp [c4wCk] at this
            omega
          omega)
      (by intro s hs n hn
          have hs2 : s = 300 := by
            have := Option.mem_def.mp hs
            simp [c4wU, jsOrNullNat] at this
            omega
          have hn2 : n = 200 := by
            have := Option.mem_def.mp hn
            simp [c4wCk] at this
            omega
          omega)
      (ckptMergeRow 9 c4wU c4wCk) (by decide)).1
      100 (Option.mem_def.mpr (by decide)) 50 (Option.mem_def.mpr (by decide))⟩

/-! ### C6 — the cool-down filter -/

def c6Row : Row := { wRow with status := "reclaimable", initialTimestamp := some 1000 }

def c6Db : Db := { accounts := [("PK1", c6Row)], checkpoints := [] }

def c6Cfg : ReclaimConfig :=
  { dryRun := false, whitelist := [], circuitBreakerSol := 0
  , coolDownDays := 7, batchSize := 15 }

/-- C6 — the cool-down never triggers: `getReclaimableAccounts` maps no
`closedAt` property onto its views (the column does not exist), so the
cool-down filter's missing-data branch accepts every account.  Here an
account classified `reclaimable` at time 1000 is evaluated at time
1000 (age zero, far younger than the 7-day cool-down) and is still
passed through to `ReclaimAccounts`. -/
theorem c6_cooldown_never_triggers :
    c6Cfg.coolDownDays = 7 ∧
    (getReclaimableAccounts c6Db).map (fun a => a.closedAt) = [none] ∧
    (reclaimEligibleFilter c6Cfg 1000 (getReclaimableAccounts c6Db)).map (fun a => a.pubkey)
        = ["PK1"] := by
  refine ⟨rfl, by decide, ?_⟩
  decide

/-! ### C9 — verifier classification of zero-balance token accounts -/

/-- C9 — for a candidate that exists on-chain as a recognized
token-kind account (token program owner, full account data) with zero
token balance, the verifier marks it reclaimable exactly when the
operator holds the effective close authority (the explicit close
authority when set, otherwise the token owner), and otherwise returns
`canReclaim = false` together with a close-authority-mismatch reason. -/
theorem c9_verifier_close_authority (chain : Chain) (operator : String)
    (acc : DiscoveredAccount) (info : AccountInfo) (d : TokenData)
    (hchain : chain acc.pubkey = some info)
    (htoken : isTokenProgram info.owner = true)
    (hsize : info.dataLen ≥ ACCOUNT_SIZE)
    (hdecode : info.tokenData = some d)
    (hzero : d.amount = 0) :
    ((analyzeOne chain operator acc).map (fun r => r.canReclaim)
        = some (decide (effectiveCloseAuthority d = operator))) ∧
    (¬ (effectiveCloseAuthority d = operator) →
      (analyzeOne chain operator acc).bind (fun r => r.reason)
        = some ("Close authority is " ++ effectiveCloseAuthority d)) ∧
    ((effectiveCloseAuthority d = operator) →
      (analyzeOne chain operator acc).map (fun r => r.reason) = some none) := by
  by_cases h : effectiveCloseAuthority d = operator <;>
    simp [analyzeOne, hchain, hdecode, htoken, hsize, hzero, h]

def c9Chain : Chain := fun pk =>
  if pk = "PK1" then
    some { owner := TOKEN_PROGRAM_ID, lamports := 2039280, dataLen := 165
         , tokenData := some { amount := 0, owner := "USER", mint := "MINT"
                             , closeAuthorityOption := 1, closeAuthority := "EVE" } }
  else none

def c9Acc : DiscoveredAccount :=
  { pubkey := "PK1", userWallet := "USER", mint := "MINT", type := "token"
  , rentPaid := 2039280, signature := "S", slot := 1 }

def c9Td : TokenData :=
  { amount := 0, owner := "USER", mint := "MINT"
  , closeAuthorityOption := 1, closeAuthority := "EVE" }

def c9Info : AccountInfo :=
  { owner := TOKEN_PROGRAM_ID, lamports := 2039280, dataLen := 165
  , tokenData := some c9Td }

theorem c9_verifier_close_authority_witness :
    ((analyzeOne c9Chain "OP" c9Acc).map (fun r => r.canReclaim) = some false) ∧
    ((analyzeOne c9Chain "OP" c9Acc).bind (fun r => r.reason)
        = some "Close authority is EVE") := by
  have h := c9_verifier_close_authority c9Chain "OP" c9Acc c9Info c9Td
    (by decide) (by decide) (by decide) rfl rfl
  refine ⟨?_, ?_⟩
  · rw [h.1]
    decide
  · rw [h.2.1 (by decide)]
    decide

/-! ### C7 — candidate extraction -/

theorem extractCandidate_pubkey (cachedRent : Option Nat) (operator : String)
    (tx : HeliusTx) (ad : AccountData) (c : DiscoveredAccount)
    (h : extractCandidate cachedRent operator tx ad = some c) :
    c.pubkey = ad.account := by
  unfold extractCandidate at h
  dsimp only at h
  split at h
  · split at h
    · exact absurd h (by simp)
    · split at h
      · injection h with h'
        rw [← h']
      · exact absurd h (by simp)
  · exact absurd h (by simp)

theorem filterMap_filter_account {f : AccountData → Option DiscoveredAccount}
    (hf : ∀ ad c, f ad = some c → c.pubkey = ad.account) (X : String) :
    ∀ l : List AccountData,
      (l.filterMap f).filter (fun c => c.pubkey = X)
        = (l.filter (fun ad => ad.account = X)).filterMap f := by
  intro l
  induction l with
  | nil => simp
  | cons ad t ih =>
    cases hfa : f ad with
    | none =>
        by_cases hX : ad.account = X <;>
          simp [List.filterMap_cons, List.filter_cons, hfa, hX, ih]
    | some c =>
        have hc := hf ad c hfa
        by_cases hX : ad.account = X
        · simp [List.filterMap_cons, List.filter_cons, hfa, hX, hc ▸ hX, ih]
        · have hcX : ¬ (c.pubkey = X) := by rw [hc]; exact hX
          simp [List.filterMap_cons, List.filter_cons, hfa, hX, hcX, ih]

/-- C7 — counterexample: the claim has no event-type condition, but
`Discoverer.processTransaction` discards any transaction whose
classified type is not CREATE_ACCOUNT / SET_AUTHORITY / UNKNOWN.  A
TRANSFER transaction with fee payer = operator, a balance increase on
X exactly equal to the cached rent-exempt deposit, X neither the
operator nor infrastructure, and an ATA creation instruction naming
owner U and mint R in the known positions yields no candidate at all
instead of exactly one. -/
theorem c7_counterexample :
    let tx : HeliusTx :=
      { signature := "TX1", slot := 10, timestamp := 99, fee := 5000
      , feePayer := "OP", txType := "TRANSFER", source := "KORA"
      , accountData := [ { account := "OP", nativeBalanceChange := -2044280 }
                       , { account := "X", nativeBalanceChange := 2039280 }
                       , { account := "U", nativeBalanceChange := 0 } ]
      , instructions := [ { programId := ASSOCIATED_TOKEN_PROGRAM_ID
                          , accounts := ["OP", "X", "U", "R",
                              SYSTEM_PROGRAM_ID, TOKEN_PROGRAM_ID] } ] }
    tx.feePayer = "OP" ∧
    (tx.accountData.filter (fun a => a.account = "X")).map (fun a => a.nativeBalanceChange)
        = [(rentUsed (some 2039280) : Int)] ∧
    ¬ ("X" = "OP") ∧ "X" ∉ SYSTEM_ADDRESSES ∧
    (findCreationIx tx.instructions "X").isSome ∧
    processTransaction (some 2039280) "OP" tx = [] := by decide

/-- C7 (amended) — provided the transaction's classified event type is
CREATE_ACCOUNT, SET_AUTHORITY or UNKNOWN (any other type is discarded
before extraction), a transaction with fee payer = operator, exactly
one balance-delta entry for X whose increase equals the cached
rent-exempt deposit, X neither the operator nor a well-known
infrastructure address, and whose first matching creation instruction
names owner U (non-empty) and resource R in the known positions,
yields exactly one candidate for X, carrying owner U and resource R. -/
theorem c7_extraction_exactly_one (cachedRent : Option Nat) (operator : String)
    (tx : HeliusTx) (X U R : String) (ad : AccountData) (ix : Ix)
    (hfee : tx.feePayer = operator)
    (htype : tx.txType = "CREATE_ACCOUNT" ∨ tx.txType = "SET_AUTHORITY"
              ∨ tx.txType = "UNKNOWN")
    (hunique : tx.accountData.filter (fun a => a.account = X) = [ad])
    (hchg : ad.nativeBalanceChange = (rentUsed cachedRent : Int))
    (hXop : ¬ X = operator) (hXsys : X ∉ SYSTEM_ADDRESSES)
    (hix : findCreationIx tx.instructions X = some ix)
    (hU : ix.accounts[2]? = some U) (hUne : ¬ U = "")
    (hR : ix.accounts[3]? = some R) :
    (processTransaction cachedRent operator tx).filter (fun c => c.pubkey = X)
      = [{ pubkey := X, userWallet := U, mint := R
         , type := if ix.accounts[5]? = some TOKEN_2022_PROGRAM_ID then "token-2022"
                   else "token"
         , rentPaid := ad.nativeBalanceChange, signature := tx.signature
         , slot := tx.slot, timestamp := tx.timestamp
         , sponsorshipSource := tx.source, memo := "" }] := by
  have hadX : ad.account = X := by
    have : ad ∈ tx.accountData.filter (fun a => a.account = X) := by
      rw [hunique]; exact List.mem_singleton_self ad
    simpa using (List.mem_filter.mp this).2
  have htygate : ¬ (tx.txType ≠ "CREATE_ACCOUNT" ∧ tx.txType ≠ "SET_AUTHORITY"
      ∧ tx.txType ≠ "UNKNOWN") := by
    rcases htype with h | h | h <;> simp [h]
  unfold processTransaction
  rw [if_neg (by simp [hfee]), if_neg htygate]
  rw [filterMap_filter_account (extractCandidate_pubkey cachedRent operator tx) X
    tx.accountData, hunique]
  have hone : extractCandidate cachedRent operator tx ad
      = some { pubkey := X, userWallet := U, mint := R
             , type := if ix.accounts[5]? = some TOKEN_2022_PROGRAM_ID then "token-2022"
                       else "token"
             , rentPaid := ad.nativeBalanceChange, signature := tx.signature
             , slot := tx.slot, timestamp := tx.timestamp
             , sponsorshipSource := tx.source, memo := "" } := by
    unfold extractCandidate
    rw [if_pos (by rw [hchg]; simp)]
    rw [hadX]
    rw [if_neg (by push_neg; exact ⟨hXop, hXsys⟩)]
    rw [hix]
    simp only [hU, hR, Option.getD_some]
    rw [if_neg hUne]
    split
    · rfl
    · rfl
  simp [List.filterMap_cons, hone]

def c7wTx : HeliusTx :=
  { signature := "TX2", slot := 11, timestamp := 100, fee := 5000
  , feePayer := "OP", txType := "SET_AUTHORITY", source := "KORA"
  , accountData := [ { account := "OP", nativeBalanceChange := -2044280 }
                   , { account := "X", nativeBalanceChange := 2039280 } ]
  , instructions := [ { programId := ASSOCIATED_TOKEN_PROGRAM_ID
                      , accounts := ["OP", "X", "U", "R",
                          SYSTEM_PROGRAM_ID, TOKEN_PROGRAM_ID] } ] }

theorem c7_extraction_exactly_one_witness :
    (processTransaction (some 2039280) "OP" c7wTx).filter (fun c => c.pubkey = "X")
      = [{ pubkey := "X", userWallet := "U", mint := "R", type := "token"
         , rentPaid := 2039280, signature := "TX2", slot := 11, timestamp := 100
         , sponsorshipSource := "KORA", memo := "" }] := by
  have h := c7_extraction_exactly_one (some 2039280) "OP" c7wTx "X" "U" "R"
    { account := "X", nativeBalanceChange := 2039280 }
    { programId := ASSOCIATED_TOKEN_PROGRAM_ID
    , accounts := ["OP", "X", "U", "R", SYSTEM_PROGRAM_ID, TOKEN_PROGRAM_ID] }
    rfl (Or.inr (Or.inl rfl)) (by decide) (by decide) (by decide) (by decide)
    (by decide) (by decide) (by decide) (by decide)
  rw [h]
  decide

/-! ### C2 — the circuit breaker -/

/-- After a metadata batch whose every update carries `status = some s`,
every row named by some update has status `s`, with its error message
and reclaimed amount untouched. -/
theorem batchUpdateMeta_status_all (now : Nat) (st : String) :
    ∀ (us : List MetaUpdate), (∀ u ∈ us, u.status = some st) →
    ∀ (db : Db) (pk : String), pk ∈ us.map (fun u => u.pubkey) →
    ∀ r, dbLookup db pk = some r →
      ∃ r', dbLookup (batchUpdateAccountMetadata db now us) pk = some r'
        ∧ r'.status = st ∧ r'.errorMessage = r.errorMessage
        ∧ r'.reclaimedAmount = r.reclaimedAmount := by
  intro us
  induction us with
  | nil => intro _ db pk hmem; simp at hmem
  | cons u rest ih =>
    intro hst db pk hmem r hr
    rw [batchUpdateAccountMetadata]
    by_cases hrest : pk ∈ rest.map (fun u => u.pubkey)
    · have hlook : dbLookup (dbModifyRow db u.pubkey (applyMetaUpdate now u)) pk
          = some (if pk = u.pubkey then applyMetaUpdate now u r else r) := by
        by_cases hpk : pk = u.pubkey
        · subst hpk
          rw [dbModifyRow_lookup_eq, hr]
          simp
        · rw [dbModifyRow_lookup_ne _ _ _ _ hpk, hr]
          simp [hpk]
      obtain ⟨r', hr', hst', hem, ham⟩ :=
        ih (fun v hv => hst v (List.mem_cons_of_mem _ hv)) _ pk hrest _ hlook
      refine ⟨r', hr', hst', ?_, ?_⟩
      · rw [hem]
        by_cases hpk : pk = u.pubkey <;> simp [hpk, applyMetaUpdate]
      · rw [ham]
        by_cases hpk : pk = u.pubkey <;> simp [hpk, applyMetaUpdate]
    · have hpk : pk = u.pubkey := by
        rcases List.mem_map.mp hmem with ⟨v, hv, hveq⟩
        rcases List.mem_cons.mp hv with h1 | h1
        · rw [← hveq, h1]
        · exact absurd (List.mem_map.mpr ⟨v, h1, hveq⟩) hrest
      subst hpk
      rw [batchUpdateAccountMetadata_frame now rest _ _
        (fun v hv hq => hrest (by rw [hq]; exact List.mem_map.mpr ⟨v, hv, rfl⟩))]
      rw [dbModifyRow_lookup_eq, hr]
      refine ⟨applyMetaUpdate now u r, by simp, ?_, rfl, rfl⟩
      simp [applyMetaUpdate, hst u (List.mem_cons_self _ _)]

/-- C2 (amended) — in non-dry-run mode with a configured ceiling, a
batch whose summed lamport value exceeds the ceiling executes zero
mutation submissions, reports every member failed, and sets every
member's stored status to `error`; the descriptive reason is only
passed in the update request and is not persisted (the store has no
error-message column), so the stored error message is unchanged.
Processing then continues: `reclaimBatch` returns normally and
`reclaimAccounts` folds on to the next batch. -/
theorem c2_circuit_breaker (cfg : ReclaimConfig) (submit : SubmitOracle) (now : Nat)
    (accounts : List (String × AccountInfo)) (db : Db)
    (hcb : cfg.circuitBreakerSol > 0)
    (hover : (batchLamports accounts : ℚ) / 1000000000 > cfg.circuitBreakerSol)
    (hdry : cfg.dryRun = false)
    (hne : ¬ accounts = []) :
    (reclaimBatch cfg submit now accounts db).trace = [] ∧
    (reclaimBatch cfg submit now accounts db).res = ⟨0, accounts.length, 0⟩ ∧
    (∀ pk ∈ accounts.map Prod.fst, ∀ r, dbLookup db pk = some r →
      ∃ r', dbLookup (reclaimBatch cfg submit now accounts db).db pk = some r'
        ∧ r'.status = "error" ∧ r'.errorMessage = r.errorMessage) := by
  have hbr : reclaimBatch cfg submit now accounts db =
      ⟨⟨0, accounts.length, 0⟩,
        batchUpdateAccountMetadata db now (accounts.map (fun a =>
          { pubkey := a.1, status := some "error",
            errorMessage := some "Circuit Breaker Tripped" })), []⟩ := by
    unfold reclaimBatch
    rw [if_neg (by simpa using hne)]
    rw [if_pos ⟨hcb, hover, by simp [hdry]⟩]
  rw [hbr]
  refine ⟨rfl, rfl, ?_⟩
  intro pk hmem r hr
  have hmem2 : pk ∈ (accounts.map (fun a =>
      ({ pubkey := a.1, status := some "error",
         errorMessage := some "Circuit Breaker Tripped" } : MetaUpdate))).map
        (fun u => u.pubkey) := by
    rcases List.mem_map.mp hmem with ⟨a, ha, haeq⟩
    exact List.mem_map.mpr ⟨_, List.mem_map.mpr ⟨a, ha, rfl⟩, haeq⟩
  obtain ⟨r', hr', hst, hem, _⟩ := batchUpdateMeta_status_all now "error" _
    (by intro u hu
        rcases List.mem_map.mp hu with ⟨a, _, haeq⟩
        rw [← haeq]) db pk hmem2 r hr
  exact ⟨r', hr', hst, hem⟩

def c2Cfg : ReclaimConfig :=
  { dryRun := false, whitelist := [], circuitBreakerSol := 5
  , coolDownDays := 0, batchSize := 15 }

def c2Info : AccountInfo :=
  { owner := TOKEN_PROGRAM_ID, lamports := 6000000000, dataLen := 165
  , tokenData := some { amount := 0, owner := "USER", mint := "MINT"
                      , closeAuthorityOption := 1, closeAuthority := "OP" } }

def c2Submit : SubmitOracle := fun _ => .ok "SIGX"

def c2Db : Db := { accounts := [("PK1", wRow)], checkpoints := [] }

/-- C2 — counterexample to the claim as stated: a one-account batch of
6 SOL against a 5-SOL ceiling executes zero submissions and sets the
stored status to `error`, but no descriptive reason is persisted: the
row's error message is still absent after the call, because the store
has no error-message column and `batchUpdateAccountMetadata` drops the
`errorMessage` property the Reclaimer passes. -/
theorem c2Info_over_ceiling :
    (batchLamports [("PK1", c2Info)] : ℚ) / 1000000000 > c2Cfg.circuitBreakerSol := by
  have hb : batchLamports [("PK1", c2Info)] = 6000000000 := by decide
  rw [hb]
  norm_num [c2Cfg]

theorem c2_counterexample :
    (dbLookup c2Db "PK1").map (fun r => r.errorMessage) = some none ∧
    (reclaimBatch c2Cfg c2Submit 77 [("PK1", c2Info)] c2Db).trace = [] ∧
    statusOf (reclaimBatch c2Cfg c2Submit 77 [("PK1", c2Info)] c2Db).db "PK1"
        = some "error" ∧
    (dbLookup (reclaimBatch c2Cfg c2Submit 77 [("PK1", c2Info)] c2Db).db "PK1").map
        (fun r => r.errorMessage) = some none := by
  have hbr : reclaimBatch c2Cfg c2Submit 77 [("PK1", c2Info)] c2Db =
      ⟨⟨0, 1, 0⟩,
        batchUpdateAccountMetadata c2Db 77
          [{ pubkey := "PK1", status := some "error",
             errorMessage := some "Circuit Breaker Tripped" }], []⟩ := by
    unfold reclaimBatch
    rw [if_neg (by decide)]
    rw [if_pos ⟨by norm_num [c2Cfg], c2Info_over_ceiling, by decide⟩]
    rfl
  rw [hbr]
  refine ⟨by decide, rfl, by decide, by decide⟩

theorem c2_circuit_breaker_witness :
    (reclaimBatch c2Cfg c2Submit 77 [("PK1", c2Info)] c2Db).trace = [] ∧
    (reclaimBatch c2Cfg c2Submit 77 [("PK1", c2Info)] c2Db).res = ⟨0, 1, 0⟩ :=
  have h := c2_circuit_breaker c2Cfg c2Submit 77 [("PK1", c2Info)] c2Db
    (by norm_num [c2Cfg]) c2Info_over_ceiling rfl (by decide)
  ⟨h.1, h.2.1⟩

/-! ### Batch / trace lemmas (towards the whitelist and double-tap claims) -/

theorem chunkList_flatten_aux {α : Type} (n : Nat) :
    ∀ (k : Nat) (l : List α), l.length = k → (chunkList n l).flatten = l := by
  intro k
  induction k using Nat.strong_induction_on with
  | _ k ih =>
    intro l hn
    cases l with
    | nil => simp [chunkList]
    | cons x xs =>
      rw [chunkList]
      simp only [List.flatten_cons]
      rw [ih ((xs.drop (n - 1)).length) (by subst hn; simp; omega) _ rfl]
      rw [List.cons_append, List.take_append_drop]

theorem chunkList_flatten {α : Type} (n : Nat) (l : List α) :
    (chunkList n l).flatten = l :=
  chunkList_flatten_aux n l.length l rfl

theorem chunkList_mem_subset {α : Type} {n : Nat} {l c : List α}
    (hc : c ∈ chunkList n l) {x : α} (hx : x ∈ c) : x ∈ l := by
  rw [← chunkList_flatten n l]
  exact List.mem_flatten.mpr ⟨c, hc, hx⟩

/-- Every double-tap-verified account is a non-whitelisted input that
exists on chain as a token account with a decoded zero balance. -/
theorem batchFetchAccounts_results (cfg : ReclaimConfig) (chain : Chain) (now : Nat) :
    ∀ (l : List String) (db : Db) (p : String) (i : AccountInfo),
      (p, i) ∈ (batchFetchAccounts cfg chain now l db).1 →
      p ∈ l ∧ p ∉ cfg.whitelist ∧ chain p = some i ∧ isTokenProgram i.owner = true ∧
        ∃ d, i.tokenData = some d ∧ d.amount = 0 := by
  intro l
  induction l with
  | nil => intro db p i h; simp [batchFetchAccounts] at h
  | cons s rest ih =>
    intro db p i h
    rw [batchFetchAccounts] at h
    by_cases hw : s ∈ cfg.whitelist
    · rw [if_pos hw] at h
      obtain ⟨h1, h2, h3, h4, h5⟩ := ih _ _ _ h
      exact ⟨List.mem_cons_of_mem _ h1, h2, h3, h4, h5⟩
    · rw [if_neg hw] at h
      cases hc : chain s with
      | none =>
          simp only [hc] at h
          obtain ⟨h1, h2, h3, h4, h5⟩ := ih _ _ _ h
          exact ⟨List.mem_cons_of_mem _ h1, h2, h3, h4, h5⟩
      | some info =>
          simp only [hc] at h
          by_cases ht : isTokenProgram info.owner = true
          · rw [if_pos ht] at h
            cases hd : info.tokenData with
            | none =>
                simp only [hd] at h
                obtain ⟨h1, h2, h3, h4, h5⟩ := ih _ _ _ h
                exact ⟨List.mem_cons_of_mem _ h1, h2, h3, h4, h5⟩
            | some d =>
                simp only [hd] at h
                by_cases hz : d.amount > 0
                · rw [if_pos hz] at h
                  obtain ⟨h1, h2, h3, h4, h5⟩ := ih _ _ _ h
                  exact ⟨List.mem_cons_of_mem _ h1, h2, h3, h4, h5⟩
                · rw [if_neg hz] at h
                  simp only [List.mem_cons] at h
                  rcases h with hhd | htl
                  · have hp : p = s := congrArg Prod.fst hhd
                    have hi : i = info := congrArg Prod.snd hhd
                    refine ⟨by rw [hp]; exact List.mem_cons_self _ _,
                        by rw [hp]; exact hw,
                        by rw [hp, hi]; exact hc,
                        by rw [hi]; exact ht,
                        ⟨d, by rw [hi]; exact hd, by omega⟩⟩
                  · obtain ⟨h1, h2, h3, h4, h5⟩ := ih _ _ _ htl
                    exact ⟨List.mem_cons_of_mem _ h1, h2, h3, h4, h5⟩
          · rw [if_neg ht] at h
            obtain ⟨h1, h2, h3, h4, h5⟩ := ih _ _ _ h
            exact ⟨List.mem_cons_of_mem _ h1, h2, h3, h4, h5⟩

theorem dbModifyRow_isSome (db : Db) (pk q : String) (f : Row → Row) :
    (dbLookup (dbModifyRow db pk f) q).isSome = (dbLookup db q).isSome := by
  by_cases h : q = pk
  · subst h
    rw [dbModifyRow_lookup_eq]
    cases dbLookup db q <;> simp
  · rw [dbModifyRow_lookup_ne _ _ _ _ h]

theorem reclaimSingle_trace_eq (cfg : ReclaimConfig) (submit : SubmitOracle) (now : Nat)
    (pk : String) (info : AccountInfo) (db : Db) :
    ∀ t ∈ (reclaimSingle cfg submit now pk info db).trace, t = [pk] := by
  intro t ht
  unfold reclaimSingle at ht
  by_cases hdry : cfg.dryRun = true
  · rw [if_pos hdry] at ht
    simp at ht
  · rw [if_neg hdry] at ht
    cases hs : submit [pk] with
    | ok sig => simp only [hs] at ht; simpa using ht
    | error msg => simp only [hs] at ht; simpa using ht

theorem reclaimSingle_frame (cfg : ReclaimConfig) (submit : SubmitOracle) (now : Nat)
    (pk : String) (info : AccountInfo) (db : Db) (q : String) (h : ¬ q = pk) :
    dbLookup (reclaimSingle cfg submit now pk info db).db q = dbLookup db q := by
  unfold reclaimSingle
  by_cases hdry : cfg.dryRun = true
  · rw [if_pos hdry]
  · rw [if_neg hdry]
    cases hs : submit [pk] with
    | ok sig =>
        dsimp only
        rw [batchUpdateAccountMetadata_frame now _ _ _ (by simpa using h),
          updateAccountStatus_lookup_ne _ _ _ _ _ _ _ h]
    | error msg =>
        dsimp only
        rw [batchUpdateAccountMetadata_frame now _ _ _ (by simpa using h)]

theorem reclaimSingleFold_trace (cfg : ReclaimConfig) (submit : SubmitOracle) (now : Nat) :
    ∀ (accounts : List (String × AccountInfo)) (db : Db),
      ∀ t ∈ (reclaimSingleFold cfg submit now accounts db).trace,
        ∀ x ∈ t, x ∈ accounts.map Prod.fst := by
  intro accounts
  induction accounts with
  | nil => intro db t ht; simp [reclaimSingleFold] at ht
  | cons a rest ih =>
    intro db t ht x hx
    rw [reclaimSingleFold] at ht
    simp only [List.mem_append] at ht
    rcases ht with h1 | h2
    · have := reclaimSingle_trace_eq cfg submit now a.1 a.2 db t h1
      rw [this] at hx
      simp at hx
      rw [hx]
      exact List.mem_map.mpr ⟨a, List.mem_cons_self _ _, rfl⟩
    · have := ih _ t h2 x hx
      simp only [List.map_cons]
      exact List.mem_cons_of_mem _ this

theorem reclaimSingleFold_frame (cfg : ReclaimConfig) (submit : SubmitOracle) (now : Nat) :
    ∀ (accounts : List (String × AccountInfo)) (db : Db) (q : String),
      q ∉ accounts.map Prod.fst →
      dbLookup (reclaimSingleFold cfg submit now accounts db).db q = dbLookup db q := by
  intro accounts
  induction accounts with
  | nil => intro db q _; rfl
  | cons a rest ih =>
    intro db q hq
    rw [reclaimSingleFold]
    have hq1 : ¬ q = a.1 := fun h =>
      hq (h ▸ List.mem_map.mpr ⟨a, List.mem_cons_self _ _, rfl⟩)
    have hq2 : q ∉ rest.map Prod.fst := fun h =>
      hq (by simp only [List.map_cons]; exact List.mem_cons_of_mem _ h)
    rw [ih _ _ hq2, reclaimSingle_frame _ _ _ _ _ _ _ hq1]

theorem recordBatchSuccess_frame (now : Nat) (sig : String) :
    ∀ (accounts : List (String × AccountInfo)) (db : Db) (q : String),
      q ∉ accounts.map Prod.fst →
      dbLookup (recordBatchSuccess now sig accounts db) q = dbLookup db q := by
  intro accounts
  induction accounts with
  | nil => intro db q _; rfl
  | cons a rest ih =>
    intro db q hq
    have hq1 : ¬ q = a.1 := fun h =>
      hq (h ▸ List.mem_map.mpr ⟨a, List.mem_cons_self _ _, rfl⟩)
    have hq2 : q ∉ rest.map Prod.fst := fun h =>
      hq (by simp only [List.map_cons]; exact List.mem_cons_of_mem _ h)
    cases a with
    | mk pk i =>
      rw [recordBatchSuccess]
      rw [ih _ _ hq2,
        batchUpdateAccountMetadata_frame now _ _ _ (by simpa using hq1),
        updateAccountStatus_lookup_ne _ _ _ _ _ _ _ hq1]

theorem reclaimBatch_trace (cfg : ReclaimConfig) (submit : SubmitOracle) (now : Nat)
    (accounts : List (String × AccountInfo)) (db : Db) :
    ∀ t ∈ (reclaimBatch cfg submit now accounts db).trace,
      ∀ x ∈ t, x ∈ accounts.map Prod.fst := by
  intro t ht x hx
  unfold reclaimBatch at ht
  by_cases he : accounts.isEmpty = true
  · rw [if_pos he] at ht
    simp at ht
  · rw [if_neg he] at ht
    dsimp only at ht
    split at ht
    · simp at ht
    · split at ht
      · simp at ht
      · split at ht
        · simp at ht
        · split at ht
          · simp only [List.mem_singleton] at ht
            rw [ht] at hx
            exact hx
          · simp only [List.mem_cons] at ht
            rcases ht with h1 | h2
            · rw [h1] at hx
              exact hx
            · exact reclaimSingleFold_trace cfg submit now accounts db t h2 x hx

theorem reclaimBatch_frame (cfg : ReclaimConfig) (submit : SubmitOracle) (now : Nat)
    (accounts : List (String × AccountInfo)) (db : Db) (q : String)
    (hq : q ∉ accounts.map Prod.fst) :
    dbLookup (reclaimBatch cfg submit now accounts db).db q = dbLookup db q := by
  have hqmeta : ∀ (st : Option String) (em : Option String) (ra : Option Nat),
      ∀ u ∈ accounts.map (fun a =>
        ({ pubkey := a.1, status := st, errorMessage := em,
           reclaimedAmount := ra } : MetaUpdate)), ¬ q = u.pubkey := by
    intro st em ra u hu hqu
    rcases List.mem_map.mp hu with ⟨a, ha, haeq⟩
    exact hq (List.mem_map.mpr ⟨a, ha, by rw [← haeq] at hqu; exact hqu.symm⟩)
  unfold reclaimBatch
  by_cases he : accounts.isEmpty = true
  · rw [if_pos he]
  · rw [if_neg he]
    dsimp only
    split
    · exact batchUpdateAccountMetadata_frame now _ _ _ (hqmeta _ _ _)
    · split
      · rfl
      · split
        · rfl
        · split
          · rw [recordBatchSuccess_frame now _ _ _ _ hq]
            have hqmeta2 : ∀ u ∈ (accounts.map Prod.fst).map (fun pk =>
                ({ pubkey := pk, status := some "reclaimed",
                   reclaimedAmount := some 0 } : MetaUpdate)), ¬ q = u.pubkey := by
              intro u hu hqu
              rcases List.mem_map.mp hu with ⟨pk, hpk, hpkeq⟩
              rw [← hpkeq] at hqu
              exact hq (hqu ▸ hpk)
            exact batchUpdateAccountMetadata_frame now _ _ _ hqmeta2
          · exact reclaimSingleFold_frame cfg submit now accounts db q hq

theorem reclaimBatchFold_trace (cfg : ReclaimConfig) (submit : SubmitOracle) (now : Nat) :
    ∀ (chunks : List (List (String × AccountInfo))) (db : Db),
      ∀ t ∈ (reclaimBatchFold cfg submit now chunks db).trace,
        ∃ c ∈ chunks, ∀ x ∈ t, x ∈ c.map Prod.fst := by
  intro chunks
  induction chunks with
  | nil => intro db t ht; simp [reclaimBatchFold] at ht
  | cons b rest ih =>
    intro db t ht
    rw [reclaimBatchFold] at ht
    simp only [List.mem_append] at ht
    rcases ht with h1 | h2
    · exact ⟨b, List.mem_cons_self _ _, reclaimBatch_trace cfg submit now b db t h1⟩
    · obtain ⟨c, hc, hcx⟩ := ih _ t h2
      exact ⟨c, List.mem_cons_of_mem _ hc, hcx⟩

theorem reclaimBatchFold_frame (cfg : ReclaimConfig) (submit : SubmitOracle) (now : Nat) :
    ∀ (chunks : List (List (String × AccountInfo))) (db : Db) (q : String),
      (∀ c ∈ chunks, q ∉ c.map Prod.fst) →
      dbLookup (reclaimBatchFold cfg submit now chunks db).db q = dbLookup db q := by
  intro chunks
  induction chunks with
  | nil => intro db q _; rfl
  | cons b rest ih =>
    intro db q hq
    rw [reclaimBatchFold]
    rw [ih _ _ (fun c hc => hq c (List.mem_cons_of_mem _ hc)),
      reclaimBatch_frame cfg submit now b db q (hq b (List.mem_cons_self _ _))]

theorem reclaimAccounts_fetched (cfg : ReclaimConfig) (submit : SubmitOracle)
    (chain : Chain) (now : Nat) (l : List String) (db : Db) :
    (reclaimAccounts cfg submit chain now l db).fetched
      = (batchFetchAccounts cfg chain now l db).1 := rfl

theorem reclaimAccounts_trace (cfg : ReclaimConfig) (submit : SubmitOracle)
    (chain : Chain) (now : Nat) (l : List String) (db : Db) :
    (reclaimAccounts cfg submit chain now l db).trace
      = (reclaimBatchFold cfg submit now
          (chunkList cfg.batchSize (batchFetchAccounts cfg chain now l db).1)
          (batchFetchAccounts cfg chain now l db).2).trace := rfl

theorem reclaimAccounts_db (cfg : ReclaimConfig) (submit : SubmitOracle)
    (chain : Chain) (now : Nat) (l : List String) (db : Db) :
    (reclaimAccounts cfg submit chain now l db).db
      = (reclaimBatchFold cfg submit now
          (chunkList cfg.batchSize (batchFetchAccounts cfg chain now l db).1)
          (batchFetchAccounts cfg chain now l db).2).db := rfl

/-- C3 — a whitelisted address never reaches mutation submission: it is
dropped before the double-tap fetch, so it is in no verified batch and
in no submitted transaction, for any run of `reclaimAccounts` — and in
particular for the runs `reclaimAllEligible` performs, which also
pre-filters the whitelist. -/
theorem c3_whitelist_exclusion (cfg : ReclaimConfig) (submit : SubmitOracle)
    (chain : Chain) (now : Nat) (pubkeyStrs : List String) (db : Db)
    (w : String) (hw : w ∈ cfg.whitelist) :
    (∀ e ∈ (reclaimAccounts cfg submit chain now pubkeyStrs db).fetched, ¬ e.1 = w) ∧
    (∀ t ∈ (reclaimAccounts cfg submit chain now pubkeyStrs db).trace, w ∉ t) ∧
    (∀ t ∈ (reclaimAllEligible cfg submit chain now db).trace, w ∉ t) := by
  have hfetched : ∀ (l : List String) (e : String × AccountInfo),
      e ∈ (batchFetchAccounts cfg chain now l db).1 → ¬ e.1 = w := by
    intro l e he hew
    obtain ⟨_, hnw, _⟩ := batchFetchAccounts_results cfg chain now l db e.1 e.2 he
    exact hnw (hew ▸ hw)
  have htrace : ∀ (l : List String),
      ∀ t ∈ (reclaimAccounts cfg submit chain now l db).trace, w ∉ t := by
    intro l t ht hwt
    rw [reclaimAccounts_trace] at ht
    obtain ⟨c, hc, hcx⟩ := reclaimBatchFold_trace cfg submit now _ _ t ht
    have hwc := hcx w hwt
    rcases List.mem_map.mp hwc with ⟨e, hec, hew⟩
    exact hfetched l e (chunkList_mem_subset hc hec) hew
  refine ⟨fun e he => hfetched pubkeyStrs e (by rw [← reclaimAccounts_fetched cfg submit chain now pubkeyStrs db]; exact he), htrace pubkeyStrs, ?_⟩
  intro t ht
  exact htrace _ t ht

def c3Cfg : ReclaimConfig :=
  { dryRun := false, whitelist := ["WL"], circuitBreakerSol := 0
  , coolDownDays := 0, batchSize := 15 }

def c3Chain : Chain := fun pk =>
  if pk = "WL" ∨ pk = "PK1" then
    some { owner := TOKEN_PROGRAM_ID, lamports := 2039280, dataLen := 165
         , tokenData := some { amount := 0, owner := "USER", mint := "MINT"
                             , closeAuthorityOption := 1, closeAuthority := "OP" } }
  else none

theorem c3_whitelist_exclusion_witness :
    "WL" ∈ c3Cfg.whitelist ∧
    "WL" ∉ ((reclaimAccounts c3Cfg c2Submit c3Chain 50 ["WL", "PK1"] wDb).trace).flatten := by
  refine ⟨by decide, ?_⟩
  intro hmem
  obtain ⟨t, ht, hx⟩ := List.mem_flatten.mp hmem
  exact ((c3_whitelist_exclusion c3Cfg c2Submit c3Chain 50 ["WL", "PK1"] wDb "WL"
    (by decide)).2.1 t ht) hx

/-- Through the double-tap pre-fetch, an account whose re-fetched state
is a token account with non-zero decoded balance is set `active` when
it is processed, and stays `active` for the rest of the fetch. -/
theorem batchFetchAccounts_nonzero_active (cfg : ReclaimConfig) (chain : Chain) (now : Nat)
    (p : String) (info : AccountInfo) (d : TokenData)
    (hdry : cfg.dryRun = false) (hw : p ∉ cfg.whitelist)
    (hc : chain p = some info) (ht : isTokenProgram info.owner = true)
    (hd : info.tokenData = some d) (hz : d.amount > 0) :
    ∀ (l : List String) (db : Db),
      ((p ∈ l ∧ (dbLookup db p).isSome = true) ∨ statusOf db p = some "active") →
      statusOf (batchFetchAccounts cfg chain now l db).2 p = some "active" := by
  intro l
  induction l with
  | nil =>
    intro db hin
    rcases hin with ⟨h, _⟩ | h
    · simp at h
    · simpa [batchFetchAccounts] using h
  | cons s rest ih =>
    intro db hin
    rw [batchFetchAccounts]
    by_cases hsp : s = p
    · subst hsp
      rw [if_neg hw]
      rw [hc]
      dsimp only
      rw [if_pos ht]
      rw [hd]
      dsimp only
      rw [if_pos hz, if_neg (by rw [hdry]; simp)]
      apply ih
      right
      have hsome : (dbLookup db s).isSome = true := by
        rcases hin with ⟨_, h⟩ | h
        · exact h
        · unfold statusOf at h
          cases hl : dbLookup db s
          · rw [hl] at h; simp at h
          · simp
      rw [batchUpdateAccountMetadata]
      rw [batchUpdateAccountMetadata]
      unfold statusOf
      rw [dbModifyRow_lookup_eq]
      cases hl : dbLookup db s with
      | none => rw [hl] at hsome; simp at hsome
      | some r => simp [applyMetaUpdate]
    · have hpm : (p ∈ rest ∧ (dbLookup db p).isSome = true) ∨ statusOf db p = some "active" := by
        rcases hin with ⟨hmem, hsome⟩ | h
        · left
          refine ⟨?_, hsome⟩
          rcases List.mem_cons.mp hmem with h1 | h1
          · exact absurd h1.symm hsp
          · exact h1
        · right; exact h
      have hps : ¬ p = s := fun h => hsp h.symm
      by_cases hwl : s ∈ cfg.whitelist
      · rw [if_pos hwl]
        exact ih db hpm
      · rw [if_neg hwl]
        cases hcs : chain s with
        | none =>
            dsimp only
            apply ih
            by_cases hdb : cfg.dryRun = true
            · rw [if_pos hdb]; exact hpm
            · rw [if_neg hdb]
              rcases hpm with ⟨hmem, hsome⟩ | h
              · left
                refine ⟨hmem, ?_⟩
                unfold updateAccountStatus
                rw [dbModifyRow_isSome]
                exact hsome
              · right
                unfold statusOf at h ⊢
                rw [updateAccountStatus_lookup_ne _ _ _ _ _ _ _ hps]
                exact h
        | some i =>
            dsimp only
            by_cases hti : isTokenProgram i.owner = true
            · rw [if_pos hti]
              cases hdi : i.tokenData with
              | none => exact ih db hpm
              | some di =>
                  simp only
                  by_cases hzi : di.amount > 0
                  · rw [if_pos hzi]
                    apply ih
                    by_cases hdb : cfg.dryRun = true
                    · rw [if_pos hdb]; exact hpm
                    · rw [if_neg hdb]
                      rcases hpm with ⟨hmem, hsome⟩ | h
                      · left
                        refine ⟨hmem, ?_⟩
                        rw [batchUpdateAccountMetadata, batchUpdateAccountMetadata,
                          dbModifyRow_isSome]
                        exact hsome
                      · right
                        unfold statusOf at h ⊢
                        rw [batchUpdateAccountMetadata, batchUpdateAccountMetadata,
                          dbModifyRow_lookup_ne _ _ _ _ hps]
                        exact h
                  · rw [if_neg hzi]
                    simp only
                    exact ih db hpm
            · rw [if_neg hti]
              apply ih
              by_cases hdb : cfg.dryRun = true
              · rw [if_pos hdb]; exact hpm
              · rw [if_neg hdb]
                rcases hpm with ⟨hmem, hsome⟩ | h
                · left
                  refine ⟨hmem, ?_⟩
                  unfold updateAccountStatus
                  rw [dbModifyRow_isSome]
                  exact hsome
                · right
                  unfold statusOf at h ⊢
                  rw [updateAccountStatus_lookup_ne _ _ _ _ _ _ _ hps]
                  exact h

/-- C1 — in non-dry-run mode, an account submitted to `reclaimAccounts`
whose double-tap re-fetch shows a token account with non-zero decoded
balance is excluded from the verified set (hence from every closing
batch), appears in no submitted mutation, and its stored status ends
as `active`.  (The account was actually re-fetched: it is not
whitelisted — a whitelisted address is skipped before the fetch — and
has a stored row to update.) -/
theorem c1_double_tap_revive (cfg : ReclaimConfig) (submit : SubmitOracle) (chain : Chain)
    (now : Nat) (pubkeyStrs : List String) (db : Db) (p : String)
    (info : AccountInfo) (d : TokenData)
    (hdry : cfg.dryRun = false) (hp : p ∈ pubkeyStrs) (hw : p ∉ cfg.whitelist)
    (hc : chain p = some info) (ht : isTokenProgram info.owner = true)
    (hd : info.tokenData = some d) (hz : d.amount > 0)
    (hrow : (dbLookup db p).isSome = true) :
    (∀ e ∈ (reclaimAccounts cfg submit chain now pubkeyStrs db).fetched, ¬ e.1 = p) ∧
    (∀ t ∈ (reclaimAccounts cfg submit chain now pubkeyStrs db).trace, p ∉ t) ∧
    statusOf (reclaimAccounts cfg submit chain now pubkeyStrs db).db p = some "active" := by
  have hexcl : ∀ e ∈ (batchFetchAccounts cfg chain now pubkeyStrs db).1, ¬ e.1 = p := by
    intro e he hep
    obtain ⟨_, _, hce, _, d', hd', hz'⟩ :=
      batchFetchAccounts_results cfg chain now pubkeyStrs db e.1 e.2 he
    rw [hep, hc] at hce
    have hei : e.2 = info := by injection hce with hh; exact hh.symm
    rw [hei, hd] at hd'
    have hdd : d = d' := by injection hd'
    rw [← hdd] at hz'
    omega
  have hnotin : ∀ c ∈ chunkList cfg.batchSize (batchFetchAccounts cfg chain now pubkeyStrs db).1,
      p ∉ c.map Prod.fst := by
    intro c hcm hmem
    rcases List.mem_map.mp hmem with ⟨e, hec, hep⟩
    exact hexcl e (chunkList_mem_subset hcm hec) hep
  refine ⟨?_, ?_, ?_⟩
  · intro e he
    exact hexcl e (by rw [← reclaimAccounts_fetched cfg submit chain now pubkeyStrs db]; exact he)
  · intro t ht hpt
    rw [reclaimAccounts_trace] at ht
    obtain ⟨c, hcm, hcx⟩ := reclaimBatchFold_trace cfg submit now _ _ t ht
    exact hnotin c hcm (hcx p hpt)
  · rw [reclaimAccounts_db]
    unfold statusOf
    rw [reclaimBatchFold_frame cfg submit now _ _ p hnotin]
    have := batchFetchAccounts_nonzero_active cfg chain now p info d hdry hw hc ht hd hz
      pubkeyStrs db (Or.inl ⟨hp, hrow⟩)
    unfold statusOf at this
    exact this

def c1Cfg : ReclaimConfig :=
  { dryRun := false, whitelist := [], circuitBreakerSol := 0
  , coolDownDays := 0, batchSize := 15 }

def c1Td : TokenData :=
  { amount := 5, owner := "USER", mint := "MINT"
  , closeAuthorityOption := 1, closeAuthority := "OP" }

def c1Info : AccountInfo :=
  { owner := TOKEN_PROGRAM_ID, lamports := 2039280, dataLen := 165
  , tokenData := some c1Td }

def c1Chain : Chain := fun pk => if pk = "PK1" then some c1Info else none

theorem c1_double_tap_revive_witness :
    statusOf (reclaimAccounts c1Cfg c2Submit c1Chain 60 ["PK1"] wDb).db "PK1"
      = some "active" :=
  (c1_double_tap_revive c1Cfg c2Submit c1Chain 60 ["PK1"] wDb "PK1" c1Info c1Td
    rfl (by decide) (by decide) (by decide) (by decide) rfl (by decide) (by decide)).2.2

/-! ### C5 — what a successful close records -/

theorem updateAccountStatus_lookup_truthy (db : Db) (pk : String)
    (st : String) (now : Nat) (sig : String)
    (hnow : ¬ now = 0) (hsig : ¬ sig = "") :
    dbLookup (updateAccountStatus db pk st now (some now) (some sig)) pk
      = (dbLookup db pk).map (fun r =>
          { r with status := st, lastChecked := some now
                 , reclaimedAt := some now, reclaimSignature := some sig }) := by
  unfold updateAccountStatus
  rw [dbModifyRow_lookup_eq]
  congr 1
  funext r
  rw [if_pos (by simp [jsOrNullNat, jsOrNullStr, hnow, hsig])]

theorem reclaimSingle_reclaimedAmount (cfg : ReclaimConfig) (submit : SubmitOracle)
    (now : Nat) (pk : String) (info : AccountInfo) (db : Db) (q : String) :
    (dbLookup (reclaimSingle cfg submit now pk info db).db q).map (fun r => r.reclaimedAmount)
      = (dbLookup db q).map (fun r => r.reclaimedAmount) := by
  unfold reclaimSingle
  by_cases hdry : cfg.dryRun = true
  · rw [if_pos hdry]
  · rw [if_neg hdry]
    cases hs : submit [pk] with
    | ok sig =>
        dsimp only
        rw [batchUpdateAccountMetadata_lookup_map now _ _
          (fun u _ r => applyMetaUpdate_reclaimedAmount now u r),
          updateAccountStatus_reclaimedAmount]
    | error msg =>
        dsimp only
        rw [batchUpdateAccountMetadata_lookup_map now _ _
          (fun u _ r => applyMetaUpdate_reclaimedAmount now u r)]

/-- The row record a successful `reclaimSingle` leaves at its key. -/
theorem reclaimSingle_ok_spec (cfg : ReclaimConfig) (submit : SubmitOracle) (now : Nat)
    (pk : String) (info : AccountInfo) (db : Db) (sig2 : String)
    (hdry : cfg.dryRun = false) (hok : submit [pk] = .ok sig2)
    (hnow : ¬ now = 0) (hsig : ¬ sig2 = "")
    (r : Row) (hr : dbLookup db pk = some r) :
    ∃ r', dbLookup (reclaimSingle cfg submit now pk info db).db pk = some r'
      ∧ r'.status = "reclaimed" ∧ r'.reclaimedAt = some now
      ∧ r'.reclaimSignature = some sig2 ∧ r'.reclaimedAmount = r.reclaimedAmount := by
  unfold reclaimSingle
  rw [if_neg (by rw [hdry]; simp)]
  simp only [hok]
  rw [batchUpdateAccountMetadata, batchUpdateAccountMetadata, dbModifyRow_lookup_eq,
    updateAccountStatus_lookup_truthy db pk "reclaimed" now sig2 hnow hsig, hr]
  exact ⟨_, rfl, by simp [applyMetaUpdate], by simp [applyMetaUpdate],
    by simp [applyMetaUpdate], by simp [applyMetaUpdate]⟩

/-- Once the fallback loop has recorded a successful close at a key
whose single-account submission succeeds, further fallback iterations
keep that record intact. -/
theorem reclaimSingleFold_preserve (cfg : ReclaimConfig) (submit : SubmitOracle) (now : Nat)
    (pk : String) (sig2 : String) (a0 : Option Nat)
    (hdry : cfg.dryRun = false) (hok : submit [pk] = .ok sig2)
    (hnow : ¬ now = 0) (hsig : ¬ sig2 = "") :
    ∀ (accounts : List (String × AccountInfo)) (db : Db),
      (∃ r, dbLookup db pk = some r ∧ r.status = "reclaimed" ∧ r.reclaimedAt = some now
        ∧ r.reclaimSignature = some sig2 ∧ r.reclaimedAmount = a0) →
      ∃ r', dbLookup (reclaimSingleFold cfg submit now accounts db).db pk = some r'
        ∧ r'.status = "reclaimed" ∧ r'.reclaimedAt = some now
        ∧ r'.reclaimSignature = some sig2 ∧ r'.reclaimedAmount = a0 := by
  intro accounts
  induction accounts with
  | nil => intro db h; exact h
  | cons b rest ih =>
    intro db h
    rw [reclaimSingleFold]
    apply ih
    by_cases hb : b.1 = pk
    · obtain ⟨r, hr, h1, h2, h3, h4⟩ := h
      rw [← hb] at hr ⊢
      obtain ⟨r', hr', h1', h2', h3', h4'⟩ :=
        reclaimSingle_ok_spec cfg submit now b.1 b.2 db sig2 hdry (hb ▸ hok) hnow hsig r hr
      exact ⟨r', hr', h1', h2', h3', by rw [h4', h4]⟩
    · obtain ⟨r, hr, hprops⟩ := h
      refine ⟨r, ?_, hprops⟩
      rw [reclaimSingle_frame cfg submit now b.1 b.2 db pk (fun hh => hb hh.symm)]
      exact hr

/-- Through the whole fallback loop: a member whose single-account
submission succeeds ends recorded as reclaimed with timestamp and that
signature; its stored reclaimed amount is untouched. -/
theorem reclaimSingleFold_ok_spec (cfg : ReclaimConfig) (submit : SubmitOracle) (now : Nat)
    (hdry : cfg.dryRun = false) (hnow : ¬ now = 0) :
    ∀ (accounts : List (String × AccountInfo)) (db : Db) (pk : String) (info : AccountInfo)
      (sig2 : String), (pk, info) ∈ accounts → submit [pk] = .ok sig2 → ¬ sig2 = "" →
      ∀ r, dbLookup db pk = some r →
      ∃ r', dbLookup (reclaimSingleFold cfg submit now accounts db).db pk = some r'
        ∧ r'.status = "reclaimed" ∧ r'.reclaimedAt = some now
        ∧ r'.reclaimSignature = some sig2 ∧ r'.reclaimedAmount = r.reclaimedAmount := by
  intro accounts
  induction accounts with
  | nil => intro db pk info sig2 hmem; simp at hmem
  | cons b rest ih =>
    intro db pk info sig2 hmem hok hsig r hr
    rw [reclaimSingleFold]
    rcases List.mem_cons.mp hmem with hhd | htl
    · have hb1 : b.1 = pk := by rw [← hhd]
      apply reclaimSingleFold_preserve cfg submit now pk sig2 r.reclaimedAmount
        hdry hok hnow hsig
      rw [hb1]
      exact reclaimSingle_ok_spec cfg submit now pk b.2 db sig2 hdry hok hnow hsig r hr
    · have ham := reclaimSingle_reclaimedAmount cfg submit now b.1 b.2 db pk
      rw [hr] at ham
      cases hl : dbLookup (reclaimSingle cfg submit now b.1 b.2 db).db pk with
      | none => rw [hl] at ham; simp at ham
      | some r2 =>
          rw [hl] at ham
          have ham2 : r2.reclaimedAmount = r.reclaimedAmount := by simpa using ham
          obtain ⟨r', hr', h1, h2, h3, h4⟩ := ih _ pk info sig2 htl hok hsig r2 hl
          exact ⟨r', hr', h1, h2, h3, by rw [h4, ham2]⟩

/-- After the post-batch recording loop, every member with a stored row
is recorded `reclaimed` with the batch signature and timestamp; the
stored reclaimed amount is untouched. -/
theorem recordBatchSuccess_spec (now : Nat) (sig : String)
    (hnow : ¬ now = 0) (hsig : ¬ sig = "") :
    ∀ (accounts : List (String × AccountInfo)) (db : Db) (pk : String),
      pk ∈ accounts.map Prod.fst → ∀ r, dbLookup db pk = some r →
      ∃ r', dbLookup (recordBatchSuccess now sig accounts db) pk = some r'
        ∧ r'.status = "reclaimed" ∧ r'.reclaimedAt = some now
        ∧ r'.reclaimSignature = some sig ∧ r'.reclaimedAmount = r.reclaimedAmount := by
  intro accounts
  induction accounts with
  | nil => intro db pk h; simp at h
  | cons b rest ih =>
    intro db pk hmem r hr
    cases b with
    | mk pk0 info0 =>
      rw [recordBatchSuccess]
      by_cases hrest : pk ∈ rest.map Prod.fst
      · have hstep : ∃ r2, dbLookup (batchUpdateAccountMetadata
            (updateAccountStatus db pk0 "reclaimed" now (some now) (some sig)) now
            [{ pubkey := pk0, reclaimedAmount := some info0.lamports }]) pk = some r2
            ∧ r2.reclaimedAmount = r.reclaimedAmount := by
          by_cases hpk : pk = pk0
          · subst hpk
            rw [batchUpdateAccountMetadata, batchUpdateAccountMetadata,
              dbModifyRow_lookup_eq,
              updateAccountStatus_lookup_truthy db pk "reclaimed" now sig hnow hsig, hr]
            exact ⟨_, rfl, by simp [applyMetaUpdate]⟩
          · rw [batchUpdateAccountMetadata, batchUpdateAccountMetadata,
              dbModifyRow_lookup_ne _ _ _ _ hpk,
              updateAccountStatus_lookup_ne _ _ _ _ _ _ _ hpk, hr]
            exact ⟨r, rfl, rfl⟩
        obtain ⟨r2, hr2, ham⟩ := hstep
        obtain ⟨r', hr', h1, h2, h3, h4⟩ := ih _ pk hrest r2 hr2
        exact ⟨r', hr', h1, h2, h3, by rw [h4, ham]⟩
      · have hpk : pk = pk0 := by
          rcases List.mem_map.mp hmem with ⟨e, he, heq⟩
          rcases List.mem_cons.mp he with h1 | h1
          · rw [← heq, h1]
          · exact absurd (List.mem_map.mpr ⟨e, h1, heq⟩) hrest
        subst hpk
        rw [recordBatchSuccess_frame now sig rest _ _ hrest]
        rw [batchUpdateAccountMetadata, batchUpdateAccountMetadata,
          dbModifyRow_lookup_eq,
          updateAccountStatus_lookup_truthy db pk "reclaimed" now sig hnow hsig, hr]
        exact ⟨_, rfl, by simp [applyMetaUpdate], by simp [applyMetaUpdate],
          by simp [applyMetaUpdate], by simp [applyMetaUpdate]⟩

/-- C5 (amended) — for every account successfully closed in non-dry-run
mode (atomic batch success, or single-account fallback success after a
batch failure) that has a stored row, the record ends with status
`reclaimed`, the reclaim timestamp set, and the submitted
transaction's signature as the reclaim signature.  The exact lamport
amount recovered, however, is not persisted: the store has no
reclaimed-amount column and drops the `reclaimedAmount` the Reclaimer
passes, so the stored amount is unchanged. -/
theorem c5_success_records (cfg : ReclaimConfig) (submit : SubmitOracle) (now : Nat)
    (accounts : List (String × AccountInfo)) (db : Db) (sig : String)
    (hdry : cfg.dryRun = false)
    (hnb : ¬ (cfg.circuitBreakerSol > 0 ∧
      (batchLamports accounts : ℚ) / 1000000000 > cfg.circuitBreakerSol))
    (hne : ¬ accounts = []) (hnow : ¬ now = 0) (hsig : ¬ sig = "") :
    (submit (accounts.map Prod.fst) = .ok sig →
      ∀ pk ∈ accounts.map Prod.fst, ∀ r, dbLookup db pk = some r →
      ∃ r', dbLookup (reclaimBatch cfg submit now accounts db).db pk = some r'
        ∧ r'.status = "reclaimed" ∧ r'.reclaimedAt = some now
        ∧ r'.reclaimSignature = some sig ∧ r'.reclaimedAmount = r.reclaimedAmount) ∧
    (∀ e, submit (accounts.map Prod.fst) = .error e →
      ∀ pk info sig2, (pk, info) ∈ accounts → submit [pk] = .ok sig2 → ¬ sig2 = "" →
      ∀ r, dbLookup db pk = some r →
      ∃ r', dbLookup (reclaimBatch cfg submit now accounts db).db pk = some r'
        ∧ r'.status = "reclaimed" ∧ r'.reclaimedAt = some now
        ∧ r'.reclaimSignature = some sig2 ∧ r'.reclaimedAmount = r.reclaimedAmount) := by
  have hbr0 : ¬ (cfg.circuitBreakerSol > 0 ∧
      (batchLamports accounts : ℚ) / 1000000000 > cfg.circuitBreakerSol
      ∧ ¬ cfg.dryRun = true) := fun ⟨h1, h2, _⟩ => hnb ⟨h1, h2⟩
  have hvne : ¬ ((accounts.map Prod.fst).isEmpty = true) := by
    simp only [List.isEmpty_eq_true, List.map_eq_nil_iff]
    exact hne
  constructor
  · intro hok pk hpk r hr
    have hdb : (reclaimBatch cfg submit now accounts db).db
        = recordBatchSuccess now sig accounts
            (batchUpdateAccountMetadata db now ((accounts.map Prod.fst).map (fun pk =>
              { pubkey := pk, status := some "reclaimed", reclaimedAmount := some 0 }))) := by
      unfold reclaimBatch
      rw [if_neg (by simpa using hne)]
      dsimp only
      rw [if_neg hbr0, if_neg (by rw [hdry]; simp), if_neg hvne]
      simp only [hok]
    rw [hdb]
    have ham := batchUpdateAccountMetadata_lookup_map now
      ((accounts.map Prod.fst).map (fun pk =>
        ({ pubkey := pk, status := some "reclaimed", reclaimedAmount := some 0 } : MetaUpdate)))
      (fun r => r.reclaimedAmount)
      (fun u _ r => applyMetaUpdate_reclaimedAmount now u r) db pk
    rw [hr] at ham
    cases hl : dbLookup (batchUpdateAccountMetadata db now ((accounts.map Prod.fst).map
        (fun pk =>
          ({ pubkey := pk, status := some "reclaimed", reclaimedAmount := some 0 }
            : MetaUpdate)))) pk with
    | none => rw [hl] at ham; simp at ham
    | some r2 =>
        rw [hl] at ham
        have ham2 : r2.reclaimedAmount = r.reclaimedAmount := by simpa using ham
        obtain ⟨r', hr', h1, h2, h3, h4⟩ :=
          recordBatchSuccess_spec now sig hnow hsig accounts _ pk hpk r2 hl
        exact ⟨r', hr', h1, h2, h3, by rw [h4, ham2]⟩
  · intro e herr pk info sig2 hmem hok2 hsig2 r hr
    have hdb : (reclaimBatch cfg submit now accounts db).db
        = (reclaimSingleFold cfg submit now accounts db).db := by
      unfold reclaimBatch
      rw [if_neg (by simpa using hne)]
      dsimp only
      rw [if_neg hbr0, if_neg (by rw [hdry]; simp), if_neg hvne]
      simp only [herr]
    rw [hdb]
    exact reclaimSingleFold_ok_spec cfg submit now hdry hnow accounts db pk info sig2
      hmem hok2 hsig2 r hr

theorem c5_batch_db_eq :
    (reclaimBatch c1Cfg c2Submit 77 [("PK1", c2Info)] wDb).db
      = recordBatchSuccess 77 "SIGX" [("PK1", c2Info)]
          (batchUpdateAccountMetadata wDb 77
            [{ pubkey := "PK1", status := some "reclaimed", reclaimedAmount := some 0 }]) := by
  unfold reclaimBatch
  rw [if_neg (by decide)]
  dsimp only
  rw [if_neg (fun h => absurd h.1 (by norm_num [c1Cfg]))]
  rw [if_neg (by decide), if_neg (by decide)]
  rfl

/-- C5 — counterexample to the claim as stated: a successful batch
close of PK1 (6 SOL of rent recovered on-chain) records status
`reclaimed`, the timestamp and the transaction signature, but the
exact lamport amount recovered is not stored — the row's reclaimed
amount is still absent after the run, not 6000000000. -/
theorem c5_counterexample :
    (dbLookup wDb "PK1").map (fun r => r.reclaimedAmount) = some none ∧
    statusOf (reclaimBatch c1Cfg c2Submit 77 [("PK1", c2Info)] wDb).db "PK1"
        = some "reclaimed" ∧
    (dbLookup (reclaimBatch c1Cfg c2Submit 77 [("PK1", c2Info)] wDb).db "PK1").map
        (fun r => r.reclaimSignature) = some (some "SIGX") ∧
    (dbLookup (reclaimBatch c1Cfg c2Submit 77 [("PK1", c2Info)] wDb).db "PK1").map
        (fun r => r.reclaimedAmount) = some none ∧
    ¬ ((dbLookup (reclaimBatch c1Cfg c2Submit 77 [("PK1", c2Info)] wDb).db "PK1").map
        (fun r => r.reclaimedAmount) = some (some c2Info.lamports)) := by
  rw [c5_batch_db_eq]
  refine ⟨by decide, by decide, by decide, by decide, by decide⟩

theorem c5_success_records_witness :
    statusOf (reclaimBatch c1Cfg c2Submit 77 [("PK1", c2Info)] wDb).db "PK1"
      = some "reclaimed" := by
  obtain ⟨r', hr', h1, _, _, _⟩ :=
    (c5_success_records c1Cfg c2Submit 77 [("PK1", c2Info)] wDb "SIGX"
      rfl (fun h => absurd h.1 (by norm_num [c1Cfg])) (by decide) (by decide)
      (by decide)).1 rfl "PK1" (by decide) wRow (by decide)
  unfold statusOf
  rw [hr']
  simp [h1]

/-! ### C8 — the historical fill's termination flag and progress -/

/-- Loop invariant of the historical fill: the flush trace plus the
still-pending candidates are exactly the candidates of the processed
pages; the oldest cursor is the initial one until a page is processed
and afterwards the last transaction of the last processed page, with a
non-empty signature. -/
def scanInv (cachedRent : Option Nat) (operator : String) (init : Option String)
    (st : ScanSt) : Prop :=
  (st.flushed ++ st.pending
      = (st.pagesDone.flatten).flatMap (processTransaction cachedRent operator))
  ∧ (st.pagesDone = [] → st.oldestSig = init)
  ∧ (¬ st.pagesDone = [] → ∃ s, ¬ s = "" ∧ st.oldestSig = some s
      ∧ pageOldest st.pagesDone = some s)

theorem pageOldest_concat (pages : List (List HeliusTx)) (t : HeliusTx)
    (ts : List HeliusTx) :
    pageOldest (pages ++ [t :: ts])
      = some (((t :: ts).getLast (by simp)).signature) := by
  unfold pageOldest
  rw [List.getLast?_concat]
  simp [List.getLast?_eq_getLast]

theorem scanPageStep_inv (chain : Chain) (cachedRent : Option Nat) (operator : String)
    (now : Nat) (init : Option String) (t : HeliusTx) (ts : List HeliusTx) (st : ScanSt)
    (hinv : scanInv cachedRent operator init st)
    (hsig : ∀ x ∈ t :: ts, ¬ x.signature = "") :
    scanInv cachedRent operator init (scanPageStep chain cachedRent operator now t ts st) := by
  obtain ⟨h1, h2, h3⟩ := hinv
  have hlast : ((t :: ts).getLast (by simp)) ∈ t :: ts := List.getLast_mem _
  have h1' : (st.flushed ++ (st.pending
        ++ (t :: ts).flatMap (processTransaction cachedRent operator)))
      = ((st.pagesDone ++ [t :: ts]).flatten).flatMap
          (processTransaction cachedRent operator) := by
    rw [List.flatten_append, List.flatten_cons, List.flatten_nil, List.append_nil,
      List.flatMap_append, ← List.append_assoc, h1]
  have h3' : ∃ s, ¬ s = "" ∧ some (((t :: ts).getLast (by simp)).signature) = some s
      ∧ pageOldest (st.pagesDone ++ [t :: ts]) = some s :=
    ⟨((t :: ts).getLast (by simp)).signature, hsig _ hlast, rfl,
      pageOldest_concat st.pagesDone t ts⟩
  unfold scanPageStep
  by_cases hflush : (st.pending
      ++ (t :: ts).flatMap (processTransaction cachedRent operator)).length ≥ 50
  · rw [if_pos hflush]
    refine ⟨?_, ?_, ?_⟩
    · simpa using h1'
    · intro hempty
      simp at hempty
    · intro _
      exact h3'
  · rw [if_neg hflush]
    refine ⟨h1', ?_, ?_⟩
    · intro hempty
      simp at hempty
    · intro _
      exact h3'

theorem fullScanLoop_inv (chain : Chain) (cachedRent : Option Nat) (operator : String)
    (limit : Option Nat) (now : Nat) (init : Option String) :
    ∀ (script : List FetchResult) (st : ScanSt),
      (∀ fr ∈ script, ∀ txs, fr = FetchResult.page txs → ∀ x ∈ txs, ¬ x.signature = "") →
      scanInv cachedRent operator init st →
      scanInv cachedRent operator init
        (fullScanLoop chain cachedRent operator limit now script st).1 := by
  intro script
  induction script with
  | nil => intro st _ h; exact h
  | cons fr rest ih =>
    intro st hsig hinv
    cases fr with
    | fail => exact hinv
    | page txs =>
      cases txs with
      | nil => exact hinv
      | cons t ts =>
        simp only [fullScanLoop]
        have hstep := scanPageStep_inv chain cachedRent operator now init t ts st hinv
          (hsig _ (List.mem_cons_self _ _) _ rfl)
        have hrest : ∀ fr ∈ rest, ∀ txs, fr = FetchResult.page txs →
            ∀ x ∈ txs, ¬ x.signature = "" :=
          fun fr hfr => hsig fr (List.mem_cons_of_mem _ hfr)
        cases limit with
        | none => exact ih _ hrest hstep
        | some l =>
            dsimp only
            by_cases hcap : (scanPageStep chain cachedRent operator now t ts st).totalProcessed ≥ l
            · rw [if_pos hcap]
              exact hstep
            · rw [if_neg hcap]
              exact ih _ hrest hstep

theorem fullScanFinish_spec (chain : Chain) (cachedRent : Option Nat) (operator : String)
    (now : Nat) (cause : StopCause) (st : ScanSt) (init : Option String)
    (hinv : scanInv cachedRent operator init st) :
    (fullScanFinish chain operator now cause st).pagesDone = st.pagesDone ∧
    (fullScanFinish chain operator now cause st).flushed
      = (st.pagesDone.flatten).flatMap (processTransaction cachedRent operator) ∧
    ((dbGetCheckpoint (fullScanFinish chain operator now cause st).db operator).map
        (fun c => c.firstScanComplete)) = some (decide (cause = StopCause.emptyPage)) ∧
    (¬ st.pagesDone = [] →
      ((dbGetCheckpoint (fullScanFinish chain operator now cause st).db operator).bind
        (fun c => c.oldestSignature)) = pageOldest st.pagesDone) := by
  obtain ⟨h1, h2, h3⟩ := hinv
  refine ⟨rfl, ?_, ?_, ?_⟩
  · show (if st.pending.isEmpty then st.flushed else st.flushed ++ st.pending) = _
    by_cases hp : st.pending.isEmpty = true
    · rw [if_pos hp, ← h1]
      have : st.pending = [] := by simpa using hp
      rw [this, List.append_nil]
    · rw [if_neg hp]
      exact h1
  · show ((dbGetCheckpoint (updateCheckpoint _ now _) operator).map
        (fun c => c.firstScanComplete)) = _
    rw [updateCheckpoint_lookup_self]
    cases dbGetCheckpoint (if st.pending.isEmpty then st.db
        else saveAccounts chain operator now st.pending st.db) operator with
    | none => simp [ckptInsertRow]
    | some c => simp [ckptMergeRow]
  · intro hne
    obtain ⟨sg, hsne, hold, hpo⟩ := h3 hne
    show ((dbGetCheckpoint (updateCheckpoint _ now _) operator).bind
        (fun c => c.oldestSignature)) = _
    rw [updateCheckpoint_lookup_self]
    cases dbGetCheckpoint (if st.pending.isEmpty then st.db
        else saveAccounts chain operator now st.pending st.db) operator with
    | none =>
        simp only [Option.some_bind]
        rw [hpo]
        simp [ckptInsertRow, hold, jsOrNullStr, hsne]
    | some c =>
        simp only [Option.some_bind]
        rw [hpo]
        simp [ckptMergeRow, hold, jsOrNullStr, hsne, Option.orElse]

/-- C8 — for a historical fill pass that actually runs (the stored
first-scan flag is not yet set) over a provider script of non-empty
signatures: the stored `firstScanComplete` flag ends `true` exactly
when the loop stopped on an empty page; for every stop cause —
including a provider error and the item cap — the candidates of all
fully processed pages were flushed to the verify-and-save path, and
once at least one page was processed the stored oldest cursor is the
last transaction of the last fully processed page. -/
theorem c8_historical_fill (chain : Chain) (cachedRent : Option Nat) (operator : String)
    (limit : Option Nat) (now : Nat) (script : List FetchResult) (db : Db)
    (hstart : ((dbGetCheckpoint db operator).map (fun c => c.firstScanComplete)).getD false
        = false)
    (hsig : ∀ fr ∈ script, ∀ txs, fr = FetchResult.page txs →
        ∀ x ∈ txs, ¬ x.signature = "") :
    (((dbGetCheckpoint (fullScan chain cachedRent operator limit now script db).1.db
        operator).map (fun c => c.firstScanComplete))
      = some (decide ((fullScan chain cachedRent operator limit now script db).2
          = StopCause.emptyPage))) ∧
    ((fullScan chain cachedRent operator limit now script db).1.flushed
      = (((fullScan chain cachedRent operator limit now script db).1.pagesDone).flatten).flatMap
          (processTransaction cachedRent operator)) ∧
    (¬ (fullScan chain cachedRent operator limit now script db).1.pagesDone = [] →
      ((dbGetCheckpoint (fullScan chain cachedRent operator limit now script db).1.db
          operator).bind (fun c => c.oldestSignature))
        = pageOldest (fullScan chain cachedRent operator limit now script db).1.pagesDone) := by
  have hnotskip : ¬ (((dbGetCheckpoint db operator).map
      (fun c => c.firstScanComplete)).getD false = true) := by
    rw [hstart]
    simp
  set db0 := updateCheckpoint db now
    { operator := operator, scanStatus := some "scanning", firstScanComplete := some false }
    with hdb0
  set run := fullScanLoop chain cachedRent operator limit now script
    (initialScanSt (dbGetCheckpoint db operator) db0) with hrun
  have hout : fullScan chain cachedRent operator limit now script db
      = (fullScanFinish chain operator now run.2 run.1, run.2) := by
    unfold fullScan
    rw [if_neg hnotskip]
  have hinv0 : scanInv cachedRent operator
      ((dbGetCheckpoint db operator).bind (fun c => c.oldestSignature))
      (initialScanSt (dbGetCheckpoint db operator) db0) :=
    ⟨by simp [initialScanSt], fun _ => rfl, fun h => absurd rfl h⟩
  have hinvloop : scanInv cachedRent operator
      ((dbGetCheckpoint db operator).bind (fun c => c.oldestSignature)) run.1 := by
    rw [hrun]
    exact fullScanLoop_inv chain cachedRent operator limit now _ script _ hsig hinv0
  have hspec := fullScanFinish_spec chain cachedRent operator now run.2 run.1 _ hinvloop
  rw [hout]
  refine ⟨hspec.2.2.1, ?_, ?_⟩
  · show (fullScanFinish chain operator now run.2 run.1).flushed = _
    rw [hspec.1]
    exact hspec.2.1
  · show _ → ((dbGetCheckpoint (fullScanFinish chain operator now run.2 run.1).db
        operator).bind (fun c => c.oldestSignature)) = _
    rw [hspec.1]
    exact hspec.2.2.2

def c8Tx : HeliusTx :=
  { signature := "T1", slot := 5, timestamp := 10, fee := 5000, feePayer := "OP"
  , txType := "SET_AUTHORITY", source := "KORA"
  , accountData := [], instructions := [] }

def c8Script : List FetchResult := [.page [c8Tx], .page []]

def c8Db : Db := { accounts := [], checkpoints := [] }

theorem c8_historical_fill_witness :
    ((dbGetCheckpoint (fullScan c1Chain (some 2039280) "OP" none 90 c8Script c8Db).1.db
        "OP").map (fun c => c.firstScanComplete))
      = some (decide ((fullScan c1Chain (some 2039280) "OP" none 90 c8Script c8Db).2
          = StopCause.emptyPage)) :=
  (c8_historical_fill c1Chain (some 2039280) "OP" none 90 c8Script c8Db
    (by decide)
    (by
      intro fr hfr txs htxs x hx
      have hcases : fr = FetchResult.page [c8Tx] ∨ fr = FetchResult.page [] := by
        simpa [c8Script] using hfr
      rcases hcases with h | h
      · subst h
        injection htxs with h2
        subst h2
        have hxc : x = c8Tx := by simpa using hx
        rw [hxc]
        decide
      · subst h
        injection htxs with h2
        subst h2
        simp at hx)).1
